import Mathlib

/-!
Verification of the bishopric-life synchronization scripts.

This file gives a shallow embedding, in Lean, of the reconciliation logic of
`scripts/sync_from_membertools.py` and `scripts/sync_from_lcr.py`:

* the database tables touched by a sync run are modelled as lists of rows
  inside a `DB` record;
* each SQL statement of the scripts is translated to a pure function on `DB`
  (joins become nested `flatMap`/`filterMap`, `NOT EXISTS` subqueries become
  bounded universal quantifiers over the row lists, `UPDATE ... FROM` becomes
  a `map` that rewrites the matching rows);
* the Python classification helpers (`get_calling_display_order`, the
  bishopric override, the generic sub-org prefixing, the home-unit position
  filter) are translated line by line, with Python truthiness made explicit.

The theorems at the end of the file settle the claims C1-C10 about these
functions.
-/

set_option maxHeartbeats 1000000

namespace Bishopric

/-- Python's `pattern in s` substring test, as used throughout the sync
scripts: `strContains s pat` holds when `pat` occurs contiguously in `s`. -/
def strContains (s pat : String) : Bool :=
  decide (List.IsInfix pat.toList s.toList)

/-- Python's `str.lower()` (character-wise lowering, as `String.toLower`
does, but stated structurally so that the kernel can evaluate it). -/
def pyLower (s : String) : String := String.mk (s.data.map Char.toLower)

/-- Python's `str.upper()`. -/
def pyUpper (s : String) : String := String.mk (s.data.map Char.toUpper)

/-- Python truthiness of an optional string (`None` and `""` are falsy). -/
def pyTruthyStr : Option String → Bool
  | none => false
  | some s => decide (s ≠ "")

/-- Python truthiness of an optional integer (`None` and `0` are falsy). -/
def pyTruthyInt : Option Int → Bool
  | none => false
  | some n => decide (n ≠ 0)

/-- SQL `COALESCE` on two nullable values. -/
def coalesceO {α : Type} : Option α → Option α → Option α
  | some a, _ => some a
  | none, b => b

/-! ## Data model

Row types for the tables the sync scripts read and write.  Dates are modelled
as `Option Int` (a day number, `none` = SQL NULL). -/

/-- A row of the `members` table (`id` is the member UUID primary key,
`church_id` the stable external numeric identifier). -/
structure Member where
  id : String
  household_id : Option String
  first_name : String
  last_name : String
  email : Option String
  phone : Option String
  gender : Option String
  age : Option Int
  is_active : Bool
  church_id : Option Int
  deriving DecidableEq, Repr

/-- A row of the `households` table. -/
structure Household where
  id : String
  household_name : String
  address : Option String
  deriving DecidableEq, Repr

/-- A row of the `organizations` table. -/
structure Organization where
  id : Nat
  name : String
  parent_org_id : Option Nat
  display_order : Int
  deriving DecidableEq, Repr

/-- A row of the `callings` table. -/
structure Calling where
  id : Nat
  organization_id : Nat
  title : String
  requires_setting_apart : Bool
  display_order : Int
  deriving DecidableEq, Repr

/-- A row of the `calling_assignments` table.  `expected_release_date` and
`release_notes` are the two purely local annotation fields. -/
structure CallingAssignment where
  calling_id : Nat
  member_id : String
  is_active : Bool
  assigned_date : Option Int
  sustained_date : Option Int
  set_apart_date : Option Int
  expected_release_date : Option Int
  release_notes : Option String
  deriving DecidableEq, Repr

/-- A row of the `youth_interviews` table. -/
structure YouthInterview where
  member_id : String
  interview_type : String
  api_interview_type : String
  is_due : Bool
  deriving DecidableEq, Repr

/-- A row of the `pre_sync_calling_snapshot` table, exactly the columns
inserted by `capture_pre_sync_snapshot`. -/
structure SnapshotRow where
  calling_org_name : String
  calling_title : String
  member_church_id : Int
  member_first_name : String
  member_last_name : String
  sustained_date : Option Int
  set_apart_date : Option Int
  is_active : Bool
  expected_release_date : Option Int
  release_notes : Option String
  deriving DecidableEq, Repr

/-- A row of the `calling_changes` table (the columns written by
`create_in_flight_calling_change`). -/
structure CallingChange where
  id : Nat
  calling_id : Option Nat
  calling_org_name : String
  calling_title : String
  new_member_id : Option String
  new_member_church_id : Option Int
  current_member_id : Option String
  current_member_church_id : Option Int
  status : String
  source : String
  deriving DecidableEq, Repr

/-- A row of the `tasks` table (the columns written by
`create_in_flight_calling_change`). -/
structure Task where
  calling_change_id : Nat
  task_type : String
  member_id : Option String
  member_church_id : Option Int
  status : String
  notes : Option String
  deriving DecidableEq, Repr

/-- The portion of the database state the sync run touches.  `next_change_id`
models the sequence backing `calling_changes.id` (`RETURNING id`). -/
structure DB where
  members : List Member
  households : List Household
  organizations : List Organization
  callings : List Calling
  calling_assignments : List CallingAssignment
  youth_interviews : List YouthInterview
  pre_sync_calling_snapshot : List SnapshotRow
  calling_changes : List CallingChange
  tasks : List Task
  next_change_id : Nat
  deriving DecidableEq, Repr

/-! ## Calling display order (`get_calling_display_order`, lines 46-115) -/

/-- Line-by-line translation of `get_calling_display_order`: an ordered
if/elif chain over case-insensitive substring tests, first match wins,
default weight 50. -/
def get_calling_display_order (title : String) : Int :=
  let t := pyLower title
  if strContains t "bishop" && !strContains t "counselor" then 1
  else if strContains t "president" && !strContains t "counselor" then 1
  else if strContains t "first counselor" then 2
  else if strContains t "second counselor" then 3
  else if strContains t "1st counselor" then 2
  else if strContains t "2nd counselor" then 3
  else if strContains t "leader" && !strContains t "adult" then 5
  else if strContains t "secretary" && strContains t "executive" then 10
  else if strContains t "secretary" then 11
  else if strContains t "clerk" && !strContains t "assistant" then 12
  else if strContains t "assistant" && strContains t "clerk" then 13
  else if strContains t "instructor" then 20
  else if strContains t "teacher" then 21
  else if strContains t "coordinator" then 30
  else if strContains t "committee" then 31
  else if strContains t "advisor" || strContains t "adviser" then 40
  else if strContains t "specialist" then 41
  else if strContains t "chorister" || strContains t "music chairman" then 25
  else if strContains t "organist" || strContains t "pianist" then 26
  else if strContains t "choir" && strContains t "director" then 24
  else if strContains t "choir" then 27
  else 50

/-- Disjunction of exactly the rule conditions of
`get_calling_display_order`; a title "matches no rule" when this is false. -/
def callingOrderRuleMatches (title : String) : Bool :=
  let t := pyLower title
  (strContains t "bishop" && !strContains t "counselor") ||
  (strContains t "president" && !strContains t "counselor") ||
  strContains t "first counselor" ||
  strContains t "second counselor" ||
  strContains t "1st counselor" ||
  strContains t "2nd counselor" ||
  (strContains t "leader" && !strContains t "adult") ||
  (strContains t "secretary" && strContains t "executive") ||
  strContains t "secretary" ||
  (strContains t "clerk" && !strContains t "assistant") ||
  (strContains t "assistant" && strContains t "clerk") ||
  strContains t "instructor" ||
  strContains t "teacher" ||
  strContains t "coordinator" ||
  strContains t "committee" ||
  (strContains t "advisor" || strContains t "adviser") ||
  strContains t "specialist" ||
  (strContains t "chorister" || strContains t "music chairman") ||
  (strContains t "organist" || strContains t "pianist") ||
  (strContains t "choir" && strContains t "director") ||
  strContains t "choir"

/-! ## Hierarchy classification (`sync_organizations_and_callings`) -/

/-- The `GENERIC_SUBORG_NAMES` constant (line 902). -/
def GENERIC_SUBORG_NAMES : List String := ["Teachers", "Activities", "Service", "Ministering"]

/-- The keyword list shared by `traverse_org_hierarchy` (lines 911-914) and
`create_orgs_recursive` (lines 1144-1145). -/
def presidencyKeywords : List String :=
  ["Class Presidency", "Class Adult Leaders", "Additional Callings",
   "Quorum Presidency", "Quorum Adult Leaders"]

/-- Effective organization name of a structural node, exactly as computed in
`traverse_org_hierarchy` (lines 906-918): a leadership-roster node folds into
its parent, a generically-reused label is prefixed with the parent's name,
anything else keeps its own name.  `parentOrgName` is the `parent_org_name`
argument (`none` for a root call); Python's truthiness test on it is made
explicit. -/
def effective_org_name (parentOrgName : Option String) (orgName : String) : String :=
  if pyTruthyStr parentOrgName &&
      presidencyKeywords.any (fun k => strContains orgName k) then
    parentOrgName.getD orgName
  else if pyTruthyStr parentOrgName && GENERIC_SUBORG_NAMES.contains orgName then
    (parentOrgName.getD "") ++ " - " ++ orgName
  else orgName

/-- The `ORG_TYPE_NAMES` mapping (lines 935-945), in insertion order. -/
def ORG_TYPE_NAMES : List (String × String) :=
  [("BISHOPRIC", "Bishopric"), ("ELDERS_QUORUM", "Elders Quorum"),
   ("RELIEF_SOCIETY", "Relief Society"), ("YOUNG_MEN", "Young Men"),
   ("YOUNG_WOMEN", "Young Women"), ("PRIMARY", "Primary"),
   ("SUNDAY_SCHOOL", "Sunday School"), ("HIGH_PRIEST", "High Priests"),
   ("MUSIC", "Music")]

/-- The `POSITION_NAME_TO_ORG` mapping (lines 948-974), in insertion order. -/
def POSITION_NAME_TO_ORG : List (String × String) :=
  [("Bishop", "Bishopric"), ("Ward Clerk", "Bishopric"),
   ("Ward Executive Secretary", "Bishopric"), ("Assistant Ward Clerk", "Bishopric"),
   ("Assistant Clerk", "Bishopric"),
   ("Deacons Quorum", "Young Men"), ("Teachers Quorum", "Young Men"),
   ("Priests Quorum", "Young Men"), ("Aaronic Priesthood", "Young Men"),
   ("Nursery", "Primary"),
   ("Music", "Music"), ("Choir", "Music"), ("Organist", "Music"),
   ("Pianist", "Music"), ("Accompanist", "Music"),
   ("Ward Mission", "Other"), ("Ward Missionary", "Other"),
   ("Temple and Family History", "Other"), ("Activities Committee", "Other"),
   ("Building Representative", "Other")]

/-- The `bishopric_patterns` list (line 1221). -/
def bishopric_patterns : List String :=
  ["bishop", "ward clerk", "ward executive secretary", "ward assistant"]

/-- Organization-name resolution for one member position, exactly the chain
of lines 1212-1241 of `sync_organizations_and_callings`: structural
position-UUID lookup, then the bishopric-title override, then the type-code
fallback, then the name-pattern fallback, then the "Other" catch-all.
`positionToOrgMap` is the lookup built by `traverse_org_hierarchy`
(`none` models `uuid not in position_to_org_map`). -/
def determine_org_name (positionToOrgMap : String → Option String)
    (position_uuid : Option String) (position_name position_type : String) : String :=
  let fromLookup : Option String :=
    match position_uuid with
    | some u => if u ≠ "" then positionToOrgMap u else none
    | none => none
  let afterOverride : Option String :=
    if bishopric_patterns.any (fun p => strContains (pyLower position_name) p) then
      some "Bishopric"
    else fromLookup
  let afterType : Option String :=
    if !pyTruthyStr afterOverride then
      match ORG_TYPE_NAMES.find? (fun kv => strContains (pyUpper position_type) kv.fst) with
      | some kv => some kv.snd
      | none => afterOverride
    else afterOverride
  let afterName : Option String :=
    if !pyTruthyStr afterType then
      match POSITION_NAME_TO_ORG.find? (fun kv => strContains (pyLower position_name) (pyLower kv.fst)) with
      | some kv => some kv.snd
      | none => afterType
    else afterType
  if !pyTruthyStr afterName then "Other" else afterName.getD "Other"

/-- Home-unit filtering of one member position (lines 1192-1195): the
position is skipped (`continue`) exactly when a home-unit filter is active,
the position carries a (truthy) unit number differing from the home unit,
and the unit name does not contain "stake" case-insensitively. -/
def position_filter_skips (home_unit : Option Int) (position_unit : Option Int)
    (unit_name : String) : Bool :=
  let is_stake_position :=
    if unit_name ≠ "" then strContains (pyLower unit_name) "stake" else false
  pyTruthyInt home_unit && pyTruthyInt position_unit &&
    decide (position_unit ≠ home_unit) && !is_stake_position

/-! ## Hard refresh (`hard_refresh_synced_tables`, lines 543-575) -/

/-- The four tables the hard-refresh step clears. -/
inductive SyncedTable where
  | calling_assignments
  | youth_interviews
  | callings
  | organizations
  deriving DecidableEq, Repr

/-- One `DELETE FROM` statement of the hard-refresh step. -/
def deleteTable (db : DB) : SyncedTable → DB
  | SyncedTable.calling_assignments => { db with calling_assignments := [] }
  | SyncedTable.youth_interviews => { db with youth_interviews := [] }
  | SyncedTable.callings => { db with callings := [] }
  | SyncedTable.organizations => { db with organizations := [] }

/-- The exact sequence of `DELETE FROM` statements issued by
`hard_refresh_synced_tables` (lines 561-571), in program order. -/
def hard_refresh_delete_order : List SyncedTable :=
  [SyncedTable.calling_assignments, SyncedTable.youth_interviews,
   SyncedTable.callings, SyncedTable.organizations]

/-- `hard_refresh_synced_tables`: execute the deletes in program order. -/
def hard_refresh_synced_tables (db : DB) : DB :=
  hard_refresh_delete_order.foldl deleteTable db

/-! ## Member upsert of the membertools sync
(`sync_members_and_households`, lines 829-861) -/

/-- The `ON CONFLICT (id) DO UPDATE SET` row update of the membertools member
upsert: `gender`, `age` and `church_id` go through `COALESCE(EXCLUDED.x, old.x)`,
every other column is overwritten with the incoming value. -/
def updateMemberRow (old incoming : Member) : Member :=
  { old with
    household_id := incoming.household_id,
    first_name := incoming.first_name,
    last_name := incoming.last_name,
    email := incoming.email,
    phone := incoming.phone,
    gender := coalesceO incoming.gender old.gender,
    age := coalesceO incoming.age old.age,
    is_active := incoming.is_active,
    church_id := coalesceO incoming.church_id old.church_id }

/-- `INSERT ... ON CONFLICT (id) DO UPDATE` of the membertools member upsert:
update the row whose primary key collides, otherwise insert the incoming row. -/
def upsertMemberById (members : List Member) (incoming : Member) : List Member :=
  if members.any (fun r => decide (r.id = incoming.id)) then
    members.map (fun r => if r.id = incoming.id then updateMemberRow r incoming else r)
  else members ++ [incoming]

/-! ## Member sync of the LCR script (`sync_members`, lines 256-335) -/

/-- The fields of one external LCR member record that reach the member
upsert of `sync_members`. -/
structure LcrMemberRecord where
  person_uuid : String
  legacy_cmis_id : Option Int
  first_name : String
  last_name : String
  household_uuid : Option String
  email : Option String
  phone : Option String
  sex : Option String
  age : Option Int
  is_adult : Bool
  deriving DecidableEq, Repr

/-- The pre-merge `UPDATE` of `sync_members` (lines 275-297): backfill the
external id and merge contact/demographic fields with `COALESCE(new, old)`
(`is_active` also goes through `COALESCE`, but its argument `is_adult` is a
Python bool and never NULL). -/
def lcrPreMergeUpdate (r : Member) (rec : LcrMemberRecord) (e : Int) : Member :=
  { r with
    church_id := some e,
    household_id := coalesceO rec.household_uuid r.household_id,
    email := coalesceO rec.email r.email,
    phone := coalesceO rec.phone r.phone,
    gender := coalesceO rec.sex r.gender,
    age := coalesceO rec.age r.age,
    is_active := rec.is_adult }

/-- The name-based fallback merge of `sync_members` (lines 259-297): only
when the record carries an external id and both names are nonempty, and only
when no member row already holds that external id, find the first member row
with the same case-insensitive name and no external id, and backfill it. -/
def lcrPreMerge (members : List Member) (rec : LcrMemberRecord) : List Member :=
  match rec.legacy_cmis_id with
  | none => members
  | some e =>
    if rec.first_name ≠ "" ∧ rec.last_name ≠ "" then
      if members.any (fun r => decide (r.church_id = some e)) then members
      else
        match members.find? (fun r =>
            decide (pyLower r.first_name = pyLower rec.first_name ∧
                    pyLower r.last_name = pyLower rec.last_name ∧
                    r.church_id = none)) with
        | some target =>
          members.map (fun r => if r.id = target.id then lcrPreMergeUpdate r rec e else r)
        | none => members
    else members

/-- The `ON CONFLICT (church_id) DO UPDATE` row update of the LCR member
upsert (lines 301-331): every listed column is overwritten; `church_id` and
`id` are left untouched. -/
def lcrUpsertRow (r : Member) (rec : LcrMemberRecord) : Member :=
  { r with
    household_id := rec.household_uuid,
    first_name := rec.first_name,
    last_name := rec.last_name,
    email := rec.email,
    phone := rec.phone,
    gender := rec.sex,
    age := rec.age,
    is_active := rec.is_adult }

/-- The freshly inserted member row of the LCR upsert. -/
def lcrNewRow (rec : LcrMemberRecord) : Member :=
  { id := rec.person_uuid,
    household_id := rec.household_uuid,
    first_name := rec.first_name,
    last_name := rec.last_name,
    email := rec.email,
    phone := rec.phone,
    gender := rec.sex,
    age := rec.age,
    is_active := rec.is_adult,
    church_id := rec.legacy_cmis_id }

/-- `INSERT ... ON CONFLICT (church_id) DO UPDATE` of `sync_members`: a
conflict fires only when the inserted `church_id` is non-NULL and an existing
row holds it (SQL NULLs never conflict on a unique index). -/
def lcrUpsertMember (members : List Member) (rec : LcrMemberRecord) : List Member :=
  match rec.legacy_cmis_id with
  | some e =>
    if members.any (fun r => decide (r.church_id = some e)) then
      members.map (fun r => if r.church_id = some e then lcrUpsertRow r rec else r)
    else members ++ [lcrNewRow rec]
  | none => members ++ [lcrNewRow rec]

/-- Processing of one member record by `sync_members`: the pre-merge step
followed by the upsert. -/
def lcr_sync_member_record (members : List Member) (rec : LcrMemberRecord) : List Member :=
  lcrUpsertMember (lcrPreMerge members rec) rec

/-! ## Snapshot capture (`capture_pre_sync_snapshot`, lines 270-316) -/

/-- The columns selected by the snapshot `INSERT ... SELECT` for one join
combination. -/
def snapshotRowOf (ca : CallingAssignment) (c : Calling) (o : Organization)
    (m : Member) (cid : Int) : SnapshotRow :=
  { calling_org_name := o.name, calling_title := c.title,
    member_church_id := cid,
    member_first_name := m.first_name,
    member_last_name := m.last_name,
    sustained_date := ca.sustained_date,
    set_apart_date := ca.set_apart_date,
    is_active := ca.is_active,
    expected_release_date := ca.expected_release_date,
    release_notes := ca.release_notes }

/-- Result rows of the snapshot `INSERT ... SELECT`: active calling
assignments, joined through calling, organization and member, restricted to
members with a non-NULL `church_id` (the `Option.bind` over `church_id`). -/
def snapshotQueryRows (db : DB) : List SnapshotRow :=
  db.calling_assignments.flatMap fun ca =>
    db.callings.flatMap fun c =>
      db.organizations.flatMap fun o =>
        db.members.filterMap fun m =>
          m.church_id.bind fun cid =>
            if ca.is_active = true ∧ ca.calling_id = c.id ∧
                c.organization_id = o.id ∧ ca.member_id = m.id then
              some (snapshotRowOf ca c o m cid)
            else none

/-- `capture_pre_sync_snapshot`: clear the snapshot table and repopulate it
from the current active assignments. -/
def capture_pre_sync_snapshot (db : DB) : DB :=
  { db with pre_sync_calling_snapshot := snapshotQueryRows db }

/-! ## Annotation restore (`restore_user_entered_data`, lines 660-693) -/

/-- Join condition of the restore `UPDATE ... FROM` for one assignment and
one snapshot row: some calling, organization and member rows witness the
natural-key match. -/
def restoreJoinMatch (members : List Member) (callings : List Calling)
    (orgs : List Organization) (ca : CallingAssignment) (pss : SnapshotRow) : Prop :=
  ∃ c ∈ callings, ∃ o ∈ orgs, ∃ m ∈ members,
    m.church_id = some pss.member_church_id ∧ ca.calling_id = c.id ∧
    c.organization_id = o.id ∧ ca.member_id = m.id ∧
    o.name = pss.calling_org_name ∧ c.title = pss.calling_title

instance (members : List Member) (callings : List Calling)
    (orgs : List Organization) (ca : CallingAssignment) (pss : SnapshotRow) :
    Decidable (restoreJoinMatch members callings orgs ca pss) := by
  unfold restoreJoinMatch
  infer_instance

/-- The effect of the restore `UPDATE` on one assignment row: if a snapshot
row with a non-NULL annotation matches it by natural key, copy back the two
annotation fields. -/
def restoreAssignment (snap : List SnapshotRow) (members : List Member)
    (callings : List Calling) (orgs : List Organization)
    (ca : CallingAssignment) : CallingAssignment :=
  match snap.find? (fun pss =>
      decide ((pss.expected_release_date ≠ none ∨ pss.release_notes ≠ none) ∧
              restoreJoinMatch members callings orgs ca pss)) with
  | some pss =>
    { ca with expected_release_date := pss.expected_release_date,
              release_notes := pss.release_notes }
  | none => ca

/-- `restore_user_entered_data`: rewrite each assignment row through the
restore `UPDATE`. -/
def restore_user_entered_data (db : DB) : DB :=
  let f := restoreAssignment db.pre_sync_calling_snapshot db.members
    db.callings db.organizations
  { db with calling_assignments := db.calling_assignments.map f }

/-! ## In-flight change materialization
(`create_in_flight_calling_change`, lines 473-536) -/

/-- `create_in_flight_calling_change`: insert the change record (status
`in_flight`, source `auto_detected`) and its follow-up tasks — for a release
one pending notify-organization task; for a new assignment a pending
set-apart and record-set-apart pair exactly when no set-apart date is
present, plus always a pending notify-organization task. -/
def create_in_flight_calling_change (db : DB) (calling_id : Option Nat)
    (calling_org_name calling_title : String)
    (new_member_id : Option String) (new_member_church_id : Option Int)
    (current_member_id : Option String) (current_member_church_id : Option Int)
    (set_apart_date : Option Int) (is_release : Bool) : DB :=
  let ccid := db.next_change_id
  let change : CallingChange :=
    { id := ccid, calling_id := calling_id,
      calling_org_name := calling_org_name, calling_title := calling_title,
      new_member_id := new_member_id, new_member_church_id := new_member_church_id,
      current_member_id := current_member_id,
      current_member_church_id := current_member_church_id,
      status := "in_flight", source := "auto_detected" }
  let createdTasks : List Task :=
    if is_release then
      [{ calling_change_id := ccid, task_type := "notify_organization",
         member_id := current_member_id, member_church_id := current_member_church_id,
         status := "pending", notes := some calling_org_name }]
    else
      (if set_apart_date = none then
        [{ calling_change_id := ccid, task_type := "set_apart",
           member_id := new_member_id, member_church_id := new_member_church_id,
           status := "pending", notes := none },
         { calling_change_id := ccid, task_type := "record_set_apart",
           member_id := new_member_id, member_church_id := new_member_church_id,
           status := "pending", notes := none }]
       else []) ++
      [{ calling_change_id := ccid, task_type := "notify_organization",
         member_id := new_member_id, member_church_id := new_member_church_id,
         status := "pending", notes := some calling_org_name }]
  { db with calling_changes := db.calling_changes ++ [change],
            tasks := db.tasks ++ createdTasks,
            next_change_id := ccid + 1 }

/-! ## In-flight detection (`detect_in_flight_callings`, lines 319-470) -/

/-- One result row of the new-assignment detection query. -/
structure NewAssignRow where
  calling_id : Nat
  org_name : String
  calling_title : String
  member_id : String
  member_church_id : Int
  first_name : String
  last_name : String
  sustained_date : Option Int
  set_apart_date : Option Int
  deriving DecidableEq, Repr

/-- `WHERE` clause of the new-assignment detection query (lines 342-374) for
one candidate join combination: the assignment is active, the joins hold, its
natural key is absent from the snapshot, and no non-completed change record
targets the (organization, title, new member) triple. -/
def newRowCond (db : DB) (ca : CallingAssignment) (c : Calling)
    (o : Organization) (m : Member) (cid : Int) : Prop :=
  ca.is_active = true ∧ ca.calling_id = c.id ∧ c.organization_id = o.id ∧
  ca.member_id = m.id ∧
  (∀ pss ∈ db.pre_sync_calling_snapshot,
    ¬(pss.calling_org_name = o.name ∧ pss.calling_title = c.title ∧
      pss.member_church_id = cid)) ∧
  (∀ cc ∈ db.calling_changes,
    ¬(cc.calling_org_name = o.name ∧ cc.calling_title = c.title ∧
      cc.new_member_church_id = some cid ∧ cc.status ≠ "completed"))

instance (db : DB) (ca : CallingAssignment) (c : Calling) (o : Organization)
    (m : Member) (cid : Int) : Decidable (newRowCond db ca c o m cid) := by
  unfold newRowCond
  infer_instance

/-- The columns selected by the new-assignment detection query for one join
combination. -/
def newAssignRowOf (ca : CallingAssignment) (c : Calling) (o : Organization)
    (m : Member) (cid : Int) : NewAssignRow :=
  { calling_id := c.id, org_name := o.name,
    calling_title := c.title, member_id := m.id,
    member_church_id := cid, first_name := m.first_name,
    last_name := m.last_name,
    sustained_date := ca.sustained_date,
    set_apart_date := ca.set_apart_date }

/-- Result rows of the new-assignment detection query: the four-way inner
join restricted to members with a non-NULL `church_id` and to the `WHERE`
clause above. -/
def newAssignmentRows (db : DB) : List NewAssignRow :=
  db.calling_assignments.flatMap fun ca =>
    db.callings.flatMap fun c =>
      db.organizations.flatMap fun o =>
        db.members.filterMap fun m =>
          m.church_id.bind fun cid =>
            if newRowCond db ca c o m cid then
              some (newAssignRowOf ca c o m cid)
            else none

/-- Processing of one new-assignment row by the detection loop
(lines 378-397). -/
def processNewRow (db : DB) (r : NewAssignRow) : DB :=
  create_in_flight_calling_change db (some r.calling_id) r.org_name
    r.calling_title (some r.member_id) (some r.member_church_id)
    none none r.set_apart_date false

/-- One result row of the release detection query. -/
structure ReleaseRow where
  org_name : String
  calling_title : String
  member_church_id : Int
  first_name : String
  last_name : String
  calling_id : Option Nat
  member_id : Option String
  deriving DecidableEq, Repr

/-- `WHERE` clause of the release detection query (lines 404-438) for one
snapshot row: the snapshot row was active, no current active assignment
matches its natural key, and no non-completed change record targets the
(organization, title, released member) triple. -/
def releaseCond (db : DB) (pss : SnapshotRow) : Prop :=
  pss.is_active = true ∧
  (∀ ca ∈ db.calling_assignments, ∀ c ∈ db.callings,
    ∀ o ∈ db.organizations, ∀ m ∈ db.members,
    ¬(o.name = pss.calling_org_name ∧ c.title = pss.calling_title ∧
      m.church_id = some pss.member_church_id ∧ ca.calling_id = c.id ∧
      c.organization_id = o.id ∧ ca.member_id = m.id ∧ ca.is_active = true)) ∧
  (∀ cc ∈ db.calling_changes,
    ¬(cc.calling_org_name = pss.calling_org_name ∧
      cc.calling_title = pss.calling_title ∧
      cc.current_member_church_id = some pss.member_church_id ∧
      cc.status ≠ "completed"))

instance (db : DB) (pss : SnapshotRow) : Decidable (releaseCond db pss) := by
  unfold releaseCond
  infer_instance

/-- `LEFT JOIN` helper: the matching rows, or a single NULL row when there is
no match. -/
def leftJoinOpts {α : Type} (l : List α) : List (Option α) :=
  if l.isEmpty then [none] else l.map some

/-- The `LEFT JOIN` chain of the release detection query for one snapshot
row, producing the selected `c.id` and `m.id` columns (possibly NULL). -/
def releaseJoinRows (db : DB) (pss : SnapshotRow) : List ReleaseRow :=
  (leftJoinOpts (db.organizations.filter fun o =>
      decide (o.name = pss.calling_org_name))).flatMap fun oOpt =>
    (leftJoinOpts (match oOpt with
        | some o => db.callings.filter fun c =>
            decide (c.organization_id = o.id ∧ c.title = pss.calling_title)
        | none => [])).flatMap fun cOpt =>
      (leftJoinOpts (db.members.filter fun m =>
          decide (m.church_id = some pss.member_church_id))).map fun mOpt =>
        { org_name := pss.calling_org_name, calling_title := pss.calling_title,
          member_church_id := pss.member_church_id,
          first_name := pss.member_first_name, last_name := pss.member_last_name,
          calling_id := cOpt.map (fun c => c.id),
          member_id := mOpt.map (fun m => m.id) }

/-- Result rows of the release detection query. -/
def releaseRows (db : DB) : List ReleaseRow :=
  db.pre_sync_calling_snapshot.flatMap fun pss =>
    if releaseCond db pss then releaseJoinRows db pss else []

/-- Processing of one release row by the detection loop (lines 442-465): a
row whose current calling or member could not be resolved is skipped. -/
def processReleaseRow (db : DB) (r : ReleaseRow) : DB :=
  match r.calling_id, r.member_id with
  | some cid2, some mid =>
    create_in_flight_calling_change db (some cid2) r.org_name r.calling_title
      none none (some mid) (some r.member_church_id) none true
  | _, _ => db

/-- `detect_in_flight_callings`: run the new-assignment query and materialize
each row, then run the release query (which sees the changes just inserted)
and materialize each resolvable row. -/
def detect_in_flight_callings (db : DB) : DB :=
  let db1 := (newAssignmentRows db).foldl processNewRow db
  (releaseRows db1).foldl processReleaseRow db1

/-! ## Specification helpers for the detection fold

These auxiliary functions give a closed form for the lists of change records
and tasks appended by the two detection loops; they are related to the folds
by `foldl_processNewRow` and `foldl_processReleaseRow` below. -/

/-- The change record materialized for a new-assignment row under id `ccid`. -/
def newChangeOfRow (r : NewAssignRow) (ccid : Nat) : CallingChange :=
  { id := ccid, calling_id := some r.calling_id,
    calling_org_name := r.org_name, calling_title := r.calling_title,
    new_member_id := some r.member_id,
    new_member_church_id := some r.member_church_id,
    current_member_id := none, current_member_church_id := none,
    status := "in_flight", source := "auto_detected" }

/-- The tasks materialized for a new-assignment row under id `ccid`. -/
def tasksOfNewRow (r : NewAssignRow) (ccid : Nat) : List Task :=
  (if r.set_apart_date = none then
    [{ calling_change_id := ccid, task_type := "set_apart",
       member_id := some r.member_id, member_church_id := some r.member_church_id,
       status := "pending", notes := none },
     { calling_change_id := ccid, task_type := "record_set_apart",
       member_id := some r.member_id, member_church_id := some r.member_church_id,
       status := "pending", notes := none }]
   else []) ++
  [{ calling_change_id := ccid, task_type := "notify_organization",
     member_id := some r.member_id, member_church_id := some r.member_church_id,
     status := "pending", notes := some r.org_name }]

/-- Change records appended by the new-assignment loop, ids starting at `n`. -/
def newChangesFrom : List NewAssignRow → Nat → List CallingChange
  | [], _ => []
  | r :: rs, n => newChangeOfRow r n :: newChangesFrom rs (n + 1)

/-- Tasks appended by the new-assignment loop, ids starting at `n`. -/
def newTasksFrom : List NewAssignRow → Nat → List Task
  | [], _ => []
  | r :: rs, n => tasksOfNewRow r n ++ newTasksFrom rs (n + 1)

/-- The change record materialized for a resolvable release row. -/
def changeOfReleaseRow (r : ReleaseRow) (cid2 : Nat) (mid : String) (ccid : Nat) :
    CallingChange :=
  { id := ccid, calling_id := some cid2,
    calling_org_name := r.org_name, calling_title := r.calling_title,
    new_member_id := none, new_member_church_id := none,
    current_member_id := some mid,
    current_member_church_id := some r.member_church_id,
    status := "in_flight", source := "auto_detected" }

/-- The task materialized for a resolvable release row. -/
def taskOfReleaseRow (r : ReleaseRow) (mid : String) (ccid : Nat) : Task :=
  { calling_change_id := ccid, task_type := "notify_organization",
    member_id := some mid, member_church_id := some r.member_church_id,
    status := "pending", notes := some r.org_name }

/-- Change records appended by the release loop (skipped rows create none and
consume no id). -/
def releaseChangesFrom : List ReleaseRow → Nat → List CallingChange
  | [], _ => []
  | r :: rs, n =>
    match r.calling_id, r.member_id with
    | some cid2, some mid => changeOfReleaseRow r cid2 mid n :: releaseChangesFrom rs (n + 1)
    | _, _ => releaseChangesFrom rs n

/-- Tasks appended by the release loop. -/
def releaseTasksFrom : List ReleaseRow → Nat → List Task
  | [], _ => []
  | r :: rs, n =>
    match r.calling_id, r.member_id with
    | some _, some mid => taskOfReleaseRow r mid n :: releaseTasksFrom rs (n + 1)
    | _, _ => releaseTasksFrom rs n

/-- Number of release rows that actually materialize a change. -/
def releaseCount (rows : List ReleaseRow) : Nat :=
  rows.countP fun r => decide (r.calling_id ≠ none ∧ r.member_id ≠ none)

/-- A one-row example database: a single active Relief Society teacher
assignment with no set-apart date, an empty snapshot and an empty change
log. -/
def exampleNewAssignDB : DB :=
  ⟨[⟨"m1", none, "Jane", "Doe", none, none, none, none, true, some 12345⟩], [],
    [⟨1, "Relief Society", none, 3⟩], [⟨1, 1, "Teacher", true, 21⟩],
    [⟨1, "m1", true, none, none, none, none, none⟩], [], [], [], [], 0⟩

/-! ## General helper lemmas -/

/-- Two members of a pairwise-compatible list that are not related are equal
(used to exploit uniqueness of natural keys stated as `List.Pairwise`). -/
theorem eq_of_pairwise_of_mem {α : Type} {R : α → α → Prop} {l : List α} {a b : α}
    (hsym : ∀ x y, R x y → R y x) (hp : l.Pairwise R) (ha : a ∈ l) (hb : b ∈ l)
    (hnab : ¬ R a b) : a = b := by
  induction l with
  | nil => cases ha
  | cons x xs ih =>
    rcases List.pairwise_cons.mp hp with ⟨hx, hxs⟩
    rcases List.mem_cons.mp ha with rfl | ha2
    · rcases List.mem_cons.mp hb with rfl | hb2
      · rfl
      · exact absurd (hx b hb2) hnab
    · rcases List.mem_cons.mp hb with rfl | hb2
      · exact absurd (hsym _ _ (hx a ha2)) hnab
      · exact ih hxs ha2 hb2

/-- A list containing an element satisfying `p`, in which no two positions
can both satisfy `p`, has `countP p` exactly one. -/
theorem countP_eq_one_of_mem_unique {α : Type} {l : List α} {p : α → Bool} {a : α}
    (ha : a ∈ l) (hpa : p a = true)
    (hp : l.Pairwise fun x y => ¬(p x = true ∧ p y = true)) : l.countP p = 1 := by
  induction l with
  | nil => cases ha
  | cons x xs ih =>
    rcases List.pairwise_cons.mp hp with ⟨hx, hxs⟩
    by_cases hpx : p x = true
    · have hz : xs.countP p = 0 :=
        List.countP_eq_zero.mpr (fun y hy hpy => (hx y hy) ⟨hpx, hpy⟩)
      simp [List.countP_cons, hpx, hz]
    · rcases List.mem_cons.mp ha with rfl | ha2
      · exact absurd hpa hpx
      · simp only [List.countP_cons, hpx, if_false]
        exact ih ha2 hxs

/-- Counting through a `flatMap` whose per-element contribution is zero or
one. -/
theorem countP_flatMap_eq {α β : Type} (l : List α) (f : α → List β) (p : β → Bool)
    (q : α → Bool) (h : ∀ a ∈ l, (f a).countP p = if q a then 1 else 0) :
    (l.flatMap f).countP p = l.countP q := by
  induction l with
  | nil => simp
  | cons x xs ih =>
    rw [List.flatMap_cons, List.countP_append, List.countP_cons,
      h x (List.mem_cons_self x xs),
      ih (fun a ha => h a (List.mem_cons_of_mem _ ha))]
    by_cases hq : q x = true
    · simp only [hq, if_true]
      omega
    · simp only [hq, if_false]
      omega

/-! ## Claim C7 -/

/-- C7: the hard-refresh step deletes all rows of `calling_assignments`, then
`youth_interviews`, then `callings`, then `organizations`, in exactly that
order, and deletes no rows from the `members` or `households` tables. -/
theorem hard_refresh_scope_and_order (db : DB) :
    hard_refresh_delete_order =
      [SyncedTable.calling_assignments, SyncedTable.youth_interviews,
       SyncedTable.callings, SyncedTable.organizations] ∧
    (hard_refresh_synced_tables db).calling_assignments = [] ∧
    (hard_refresh_synced_tables db).youth_interviews = [] ∧
    (hard_refresh_synced_tables db).callings = [] ∧
    (hard_refresh_synced_tables db).organizations = [] ∧
    (hard_refresh_synced_tables db).members = db.members ∧
    (hard_refresh_synced_tables db).households = db.households :=
  ⟨rfl, rfl, rfl, rfl, rfl, rfl, rfl⟩

/-! ## Claim C8 -/

/-- C8: the calling display-order function is a total deterministic function
of the title (it is a Lean function of the title string, and its if/elif
chain gives first-matching-rule-wins semantics), with
`displayOrder "Bishop" = 1`, `displayOrder "Bishopric First Counselor" = 2`,
`displayOrder "Ward Executive Secretary"` strictly between 3 and 15,
`displayOrder "Gospel Doctrine Teacher" ≥ 20`, and the default weight 50 for
any title matching none of the rules. -/
theorem calling_display_order_spec :
    get_calling_display_order "Bishop" = 1 ∧
    get_calling_display_order "Bishopric First Counselor" = 2 ∧
    (3 < get_calling_display_order "Ward Executive Secretary" ∧
      get_calling_display_order "Ward Executive Secretary" < 15) ∧
    20 ≤ get_calling_display_order "Gospel Doctrine Teacher" ∧
    (∀ title : String, callingOrderRuleMatches title = false →
      get_calling_display_order title = 50) := by
  refine ⟨by decide, by decide, ⟨by decide, by decide⟩, by decide, ?_⟩
  intro title h
  unfold callingOrderRuleMatches at h
  simp only [Bool.or_eq_false_iff] at h
  obtain ⟨⟨⟨⟨⟨⟨⟨⟨⟨⟨⟨⟨⟨⟨⟨⟨⟨⟨⟨⟨h1, h2⟩, h3⟩, h4⟩, h5⟩, h6⟩, h7⟩, h8⟩, h9⟩,
    h10⟩, h11⟩, h12⟩, h13⟩, h14⟩, h15⟩, h16⟩, h17⟩, h18⟩, h19⟩, h20⟩, h21⟩ := h
  unfold get_calling_display_order
  simp only [h1, h2, h3, h4, h5, h6, h7, h8, h9, h10, h11, h12, h13, h14,
    h15, h16, h17, h18, h19, h20, h21, Bool.false_eq_true, if_false]
  simp

/-- Concrete instance of the default-weight clause of C8. -/
theorem calling_display_order_spec_witness :
    callingOrderRuleMatches "Dance Czar" = false ∧
    get_calling_display_order "Dance Czar" = 50 :=
  ⟨by decide, calling_display_order_spec.2.2.2.2 "Dance Czar" (by decide)⟩

/-! ## Claim C9 -/

/-- C9: the membertools member upsert never replaces a stored non-null
`church_id`, `gender` or `age` with null — when the incoming record supplies
null the existing value is kept — while `household_id`, `first_name`,
`last_name`, `email`, `phone` and `is_active` are overwritten unconditionally
with the incoming values.  `updateMemberRow r incoming` is the row the upsert
writes for the conflicting row `r`. -/
theorem member_upsert_null_monotone (members : List Member) (r incoming : Member)
    (hmem : r ∈ members) (hid : r.id = incoming.id) :
    updateMemberRow r incoming ∈ upsertMemberById members incoming ∧
    (incoming.church_id = none → (updateMemberRow r incoming).church_id = r.church_id) ∧
    (incoming.gender = none → (updateMemberRow r incoming).gender = r.gender) ∧
    (incoming.age = none → (updateMemberRow r incoming).age = r.age) ∧
    (updateMemberRow r incoming).household_id = incoming.household_id ∧
    (updateMemberRow r incoming).first_name = incoming.first_name ∧
    (updateMemberRow r incoming).last_name = incoming.last_name ∧
    (updateMemberRow r incoming).email = incoming.email ∧
    (updateMemberRow r incoming).phone = incoming.phone ∧
    (updateMemberRow r incoming).is_active = incoming.is_active := by
  refine ⟨?_, ?_, ?_, ?_, rfl, rfl, rfl, rfl, rfl, rfl⟩
  · unfold upsertMemberById
    rw [if_pos (List.any_eq_true.mpr ⟨r, hmem, by simp [hid]⟩)]
    exact List.mem_map.mpr ⟨r, hmem, by rw [if_pos hid]⟩
  · intro h
    simp [updateMemberRow, coalesceO, h]
  · intro h
    simp [updateMemberRow, coalesceO, h]
  · intro h
    simp [updateMemberRow, coalesceO, h]

/-- Concrete instance of C9: an incoming record with null `church_id`,
`gender` and `age` leaves the stored values in place. -/
theorem member_upsert_null_monotone_witness :
    (updateMemberRow ⟨"u1", none, "Ann", "Lee", none, none, some "F", some 33, true, some 7⟩
        ⟨"u1", some "h1", "Ann", "Lee", none, none, none, none, true, none⟩).church_id = some 7 ∧
    (updateMemberRow ⟨"u1", none, "Ann", "Lee", none, none, some "F", some 33, true, some 7⟩
        ⟨"u1", some "h1", "Ann", "Lee", none, none, none, none, true, none⟩).gender = some "F" ∧
    (updateMemberRow ⟨"u1", none, "Ann", "Lee", none, none, some "F", some 33, true, some 7⟩
        ⟨"u1", some "h1", "Ann", "Lee", none, none, none, none, true, none⟩).age = some 33 := by
  have h := member_upsert_null_monotone
    [⟨"u1", none, "Ann", "Lee", none, none, some "F", some 33, true, some 7⟩]
    ⟨"u1", none, "Ann", "Lee", none, none, some "F", some 33, true, some 7⟩
    ⟨"u1", some "h1", "Ann", "Lee", none, none, none, none, true, none⟩
    (by simp) rfl
  exact ⟨h.2.1 rfl, h.2.2.1 rfl, h.2.2.2.1 rfl⟩

/-! ## Claim C10 -/

/-- C10: under an active home-unit filter, a member position with a
differing unit number is still processed when its unit name contains "stake"
case-insensitively, and a position carrying no unit number is always
processed; only positions with a differing truthy unit number and a
non-stake unit name are skipped (`position_filter_skips` is the `continue`
condition of the position loop). -/
theorem stake_position_filter_bypass (home_unit position_unit : Option Int)
    (unit_name : String) :
    (strContains (pyLower unit_name) "stake" = true →
      position_filter_skips home_unit position_unit unit_name = false) ∧
    (position_unit = none →
      position_filter_skips home_unit position_unit unit_name = false) ∧
    (position_filter_skips home_unit position_unit unit_name = true →
      position_unit ≠ none ∧ position_unit ≠ home_unit ∧
      strContains (pyLower unit_name) "stake" = false) := by
  refine ⟨?_, ?_, ?_⟩
  · intro h
    have hne : unit_name ≠ "" := by
      intro he
      subst he
      exact absurd h (by decide)
    simp [position_filter_skips, hne, h]
  · intro h
    subst h
    simp [position_filter_skips, pyTruthyInt]
  · intro h
    unfold position_filter_skips at h
    simp only [Bool.and_eq_true, Bool.not_eq_true] at h
    obtain ⟨⟨⟨hhome, hpos⟩, hne⟩, hstake⟩ := h
    refine ⟨?_, ?_, ?_⟩
    · intro he
      subst he
      exact absurd hpos (by simp [pyTruthyInt])
    · exact of_decide_eq_true hne
    · by_cases hu : unit_name = ""
      · subst hu
        decide
      · simpa [hu] using hstake

/-- Concrete instance of C10: a stake calling from another unit passes the
filter, and a position without a unit number passes the filter. -/
theorem stake_position_filter_bypass_witness :
    position_filter_skips (some 5) (some 9) "Centerville Stake" = false ∧
    position_filter_skips (some 5) none "Centerville 1st Ward" = false :=
  ⟨(stake_position_filter_bypass (some 5) (some 9) "Centerville Stake").1 (by decide),
   (stake_position_filter_bypass (some 5) none "Centerville 1st Ward").2.1 rfl⟩

/-! ## Claim C5 -/

/-- C5: for any position whose display title contains, case-insensitively,
one of the bishopric substrings, `determine_org_name` yields "Bishopric",
whatever the structural position-UUID lookup would have answered (the lookup
map, the uuid and the type code are universally quantified). -/
theorem bishopric_override (positionToOrgMap : String → Option String)
    (position_uuid : Option String) (position_name position_type : String)
    (h : bishopric_patterns.any (fun p => strContains (pyLower position_name) p) = true) :
    determine_org_name positionToOrgMap position_uuid position_name position_type =
      "Bishopric" := by
  unfold determine_org_name
  simp only [h, if_true, pyTruthyStr]
  simp

/-- Concrete instance of C5: a position titled "Ward Clerk" whose structural
lookup resolves to "High Priests Quorum" still classifies to "Bishopric". -/
theorem bishopric_override_witness :
    determine_org_name
      (fun u => if u = "pos-1" then some "High Priests Quorum" else none)
      (some "pos-1") "Ward Clerk" "" = "Bishopric" :=
  bishopric_override _ _ _ _ (by decide)

/-! ## Claim C6 -/

/-- C6: every structural node whose bare name is one of the generically
reused labels and whose traversal parent carries a (truthy, i.e. nonempty)
name gets the effective organization name "parent - name"; in particular a
"Teachers" node under "Relief Society" yields "Relief Society - Teachers"
and one under "Elders Quorum" yields "Elders Quorum - Teachers", two
distinct organization names. -/
theorem generic_suborg_disambiguation :
    (∀ parent name : String, parent ≠ "" → name ∈ GENERIC_SUBORG_NAMES →
      effective_org_name (some parent) name = parent ++ " - " ++ name) ∧
    effective_org_name (some "Relief Society") "Teachers" = "Relief Society - Teachers" ∧
    effective_org_name (some "Elders Quorum") "Teachers" = "Elders Quorum - Teachers" ∧
    ("Relief Society - Teachers" : String) ≠ "Elders Quorum - Teachers" := by
  refine ⟨?_, by decide, by decide, by decide⟩
  intro parent name hp hname
  fin_cases hname
  all_goals simp [effective_org_name, pyTruthyStr, hp]
  all_goals rw [if_neg (by decide), if_pos (by decide)]

/-- Concrete instance of C6 obtained from the universally quantified clause. -/
theorem generic_suborg_disambiguation_witness :
    effective_org_name (some "Relief Society") "Ministering" =
      "Relief Society - Ministering" :=
  generic_suborg_disambiguation.1 "Relief Society" "Ministering"
    (by decide) (by decide)

/-! ## Claim C4 -/

/-- When some member row already holds the external id, the pre-merge step
leaves the member table untouched. -/
theorem lcrPreMerge_of_exists (members : List Member) (rec : LcrMemberRecord) (e : Int)
    (hrec : rec.legacy_cmis_id = some e)
    (h : members.any (fun r => decide (r.church_id = some e)) = true) :
    lcrPreMerge members rec = members := by
  simp only [lcrPreMerge, hrec]
  by_cases hname : rec.first_name ≠ "" ∧ rec.last_name ≠ ""
  · rw [if_pos hname, if_pos h]
  · rw [if_neg hname]

/-- Shape of the pre-merge step for a record carrying external id `e`: it
either leaves the table unchanged or rewrites exactly the rows sharing the id
of a found target row; the target is a member of the table, has no external
id, matches the record's name case-insensitively, and exists only because no
row holds `e`. -/
theorem lcrPreMerge_shape (members : List Member) (rec : LcrMemberRecord) (e : Int)
    (hrec : rec.legacy_cmis_id = some e) :
    lcrPreMerge members rec = members ∨
    ∃ target : Member,
      target ∈ members ∧ target.church_id = none ∧
      pyLower target.first_name = pyLower rec.first_name ∧
      pyLower target.last_name = pyLower rec.last_name ∧
      members.any (fun r => decide (r.church_id = some e)) = false ∧
      lcrPreMerge members rec =
        members.map (fun r => if r.id = target.id then lcrPreMergeUpdate r rec e else r) := by
  simp only [lcrPreMerge, hrec]
  by_cases hname : rec.first_name ≠ "" ∧ rec.last_name ≠ ""
  · rw [if_pos hname]
    by_cases hany : members.any (fun r => decide (r.church_id = some e)) = true
    · exact Or.inl (by rw [if_pos hany])
    · rw [if_neg hany]
      cases hfind : members.find? (fun r =>
          decide (pyLower r.first_name = pyLower rec.first_name ∧
                  pyLower r.last_name = pyLower rec.last_name ∧
                  r.church_id = none)) with
      | none => exact Or.inl rfl
      | some target =>
        have hp := List.find?_some hfind
        simp only [decide_eq_true_eq] at hp
        exact Or.inr ⟨target, List.mem_of_find?_eq_some hfind, hp.2.2,
          hp.1, hp.2.1, Bool.not_eq_true _ ▸ hany, rfl⟩
  · exact Or.inl (by rw [if_neg hname])

/-- C4: the name-based fallback merge of the LCR sync updates an existing
member row only when no row already holds the incoming external id `e` (first
clause) and only rows without an external id (second clause); a row with a
different non-null external id survives the whole record processing
unchanged (third clause); and after processing, exactly one member row holds
`e` (fourth clause), so no duplicate row for `e` is created. -/
theorem fallback_match_safety (members : List Member) (rec : LcrMemberRecord) (e : Int)
    (hids : members.Pairwise fun a b => a.id ≠ b.id)
    (hrec : rec.legacy_cmis_id = some e)
    (hone : (members.filter fun r => decide (r.church_id = some e)).length ≤ 1) :
    ((∃ r ∈ members, r.church_id = some e) → lcrPreMerge members rec = members) ∧
    (∀ r ∈ members, r.church_id ≠ none → r ∈ lcrPreMerge members rec) ∧
    (∀ r ∈ members, ∀ e2 : Int, r.church_id = some e2 → e2 ≠ e →
      r ∈ lcr_sync_member_record members rec) ∧
    ((lcr_sync_member_record members rec).filter
        (fun r => decide (r.church_id = some e))).length = 1 := by
  have hsym : ∀ x y : Member, x.id ≠ y.id → y.id ≠ x.id := fun x y h => h ∘ Eq.symm
  have hmono : ∀ r ∈ members, r.church_id ≠ none → r ∈ lcrPreMerge members rec := by
    intro r hr hrc
    rcases lcrPreMerge_shape members rec e hrec with hpm |
      ⟨target, htmem, htnone, _, _, _, hpm⟩
    · rw [hpm]; exact hr
    · rw [hpm]
      have hne : ¬(r.id = target.id) := by
        intro hrt
        have heq : r = target :=
          eq_of_pairwise_of_mem hsym hids hr htmem (fun h => h hrt)
        exact hrc (heq ▸ htnone)
      exact List.mem_map.mpr ⟨r, hr, by rw [if_neg hne]⟩
  refine ⟨?_, hmono, ?_, ?_⟩
  · rintro ⟨r, hr, hre⟩
    exact lcrPreMerge_of_exists members rec e hrec
      (List.any_eq_true.mpr ⟨r, hr, by simp [hre]⟩)
  · intro r hr e2 hre2 hne
    have hr2 : r ∈ lcrPreMerge members rec := hmono r hr (by simp [hre2])
    have hrne : ¬(r.church_id = some e) := by
      rw [hre2]
      exact fun h => hne (Option.some.inj h)
    simp only [lcr_sync_member_record, lcrUpsertMember, hrec]
    by_cases hany : (lcrPreMerge members rec).any (fun x => decide (x.church_id = some e)) = true
    · rw [if_pos hany]
      exact List.mem_map.mpr ⟨r, hr2, by rw [if_neg hrne]⟩
    · rw [if_neg hany]
      exact List.mem_append_left _ hr2
  · by_cases hE : members.any (fun r => decide (r.church_id = some e)) = true
    · -- a row already holds e: pre-merge is the identity, the upsert updates it
      have hpm := lcrPreMerge_of_exists members rec e hrec hE
      simp only [lcr_sync_member_record, lcrUpsertMember, hrec, hpm]
      rw [if_pos hE, ← List.countP_eq_length_filter, List.countP_map]
      have hcongr : ∀ x ∈ members,
          ((fun r => decide (r.church_id = some e)) ∘
            (fun r => if r.church_id = some e then lcrUpsertRow r rec else r)) x = true ↔
          (fun r => decide (r.church_id = some e)) x = true := by
        intro x _
        by_cases hx : x.church_id = some e
        · simp [hx, lcrUpsertRow]
        · simp [hx]
      rw [List.countP_congr hcongr]
      have h1 : 0 < members.countP (fun r => decide (r.church_id = some e)) := by
        rcases List.any_eq_true.mp hE with ⟨r, hr, hre⟩
        exact List.countP_pos_iff.mpr ⟨r, hr, hre⟩
      have h2 : members.countP (fun r => decide (r.church_id = some e)) ≤ 1 := by
        rw [List.countP_eq_length_filter]
        exact hone
      omega
    · -- no row holds e yet
      have hnone : ∀ r ∈ members, ¬(r.church_id = some e) := by
        intro r hr hre
        exact hE (List.any_eq_true.mpr ⟨r, hr, by simp [hre]⟩)
      rcases lcrPreMerge_shape members rec e hrec with hpm |
        ⟨target, htmem, htnone, _, _, _, hpm⟩
      · -- no fallback target: the upsert inserts a fresh row for e
        simp only [lcr_sync_member_record, lcrUpsertMember, hrec, hpm]
        rw [if_neg hE, List.filter_append, List.length_append]
        have h0 : members.filter (fun r => decide (r.church_id = some e)) = [] :=
          List.filter_eq_nil_iff.mpr (fun r hr => by simp [hnone r hr])
        have h1 : [lcrNewRow rec].filter (fun r => decide (r.church_id = some e)) =
            [lcrNewRow rec] := by
          simp [lcrNewRow, hrec]
        rw [h0, h1]
        rfl
      · -- fallback target found: its row is backfilled with e, then updated in place
        simp only [lcr_sync_member_record, lcrUpsertMember, hrec, hpm]
        have hftarget :
            (if target.id = target.id then lcrPreMergeUpdate target rec e else target) =
              lcrPreMergeUpdate target rec e := by rw [if_pos rfl]
        have hany2 : (members.map (fun r =>
            if r.id = target.id then lcrPreMergeUpdate r rec e else r)).any
              (fun x => decide (x.church_id = some e)) = true :=
          List.any_eq_true.mpr ⟨lcrPreMergeUpdate target rec e,
            List.mem_map.mpr ⟨target, htmem, hftarget⟩, by simp [lcrPreMergeUpdate]⟩
        rw [if_pos hany2, ← List.countP_eq_length_filter, List.countP_map,
          List.countP_map]
        have hcongr : ∀ x ∈ members,
            (((fun r => decide (r.church_id = some e)) ∘
               (fun r => if r.church_id = some e then lcrUpsertRow r rec else r)) ∘
              (fun r => if r.id = target.id then lcrPreMergeUpdate r rec e else r)) x = true ↔
            (fun r => decide (r.id = target.id)) x = true := by
          intro x hx
          by_cases hxt : x.id = target.id
          · simp only [Function.comp_apply, hxt, if_pos rfl]
            simp [lcrPreMergeUpdate, lcrUpsertRow, hxt]
          · simp only [Function.comp_apply, if_neg hxt]
            simp [hnone x hx, hxt]
        rw [List.countP_congr hcongr]
        exact countP_eq_one_of_mem_unique htmem (by simp)
          (hids.imp (fun hab => by
            intro hcon
            rcases hcon with ⟨ha, hb⟩
            simp only [decide_eq_true_eq] at ha hb
            exact hab (ha.trans hb.symm)))

/-- Concrete instance of C4: a sync record with external id 12345 and name
"John Smith" backfills the id-less row, leaves untouched the row with the
same name but external id 999, and produces exactly one row holding 12345. -/
theorem fallback_match_safety_witness :
    (⟨"b", none, "John", "Smith", none, none, none, none, true, some 999⟩ : Member) ∈
      lcr_sync_member_record
        [⟨"a", none, "John", "Smith", none, none, none, none, true, none⟩,
         ⟨"b", none, "John", "Smith", none, none, none, none, true, some 999⟩]
        ⟨"c", some 12345, "John", "Smith", none, none, none, none, none, true⟩ ∧
    ((lcr_sync_member_record
        [⟨"a", none, "John", "Smith", none, none, none, none, true, none⟩,
         ⟨"b", none, "John", "Smith", none, none, none, none, true, some 999⟩]
        ⟨"c", some 12345, "John", "Smith", none, none, none, none, none, true⟩).filter
      (fun r => decide (r.church_id = some (12345 : Int)))).length = 1 := by
  have h := fallback_match_safety
    [⟨"a", none, "John", "Smith", none, none, none, none, true, none⟩,
     ⟨"b", none, "John", "Smith", none, none, none, none, true, some 999⟩]
    ⟨"c", some 12345, "John", "Smith", none, none, none, none, none, true⟩
    12345 (by decide) rfl (by decide)
  exact ⟨h.2.2.1 ⟨"b", none, "John", "Smith", none, none, none, none, true, some 999⟩
    (by decide) 999 rfl (by decide), h.2.2.2⟩

/-! ## Claim C1 -/

/-- Membership characterization of the snapshot query result. -/
theorem mem_snapshotQueryRows {db : DB} {r : SnapshotRow} :
    r ∈ snapshotQueryRows db ↔
      ∃ ca ∈ db.calling_assignments, ∃ c ∈ db.callings, ∃ o ∈ db.organizations,
        ∃ m ∈ db.members, ∃ cid : Int, m.church_id = some cid ∧
          (ca.is_active = true ∧ ca.calling_id = c.id ∧ c.organization_id = o.id ∧
            ca.member_id = m.id) ∧
          snapshotRowOf ca c o m cid = r := by
  simp only [snapshotQueryRows, List.mem_flatMap, List.mem_filterMap,
    Option.bind_eq_some, Option.ite_none_right_eq_some, Option.some.injEq]

/-- Under the natural-key uniqueness invariants of the data model, two
snapshot rows sharing their natural key (organization name, calling title,
member external id) are the same row. -/
theorem snapshotQueryRows_key_unique (db : DB)
    (h_org_names : db.organizations.Pairwise fun a b => a.name ≠ b.name)
    (h_calling_keys : db.callings.Pairwise fun a b =>
      ¬(a.organization_id = b.organization_id ∧ a.title = b.title))
    (h_church_ids : db.members.Pairwise fun a b =>
      ¬(a.church_id ≠ none ∧ a.church_id = b.church_id))
    (h_one_active : db.calling_assignments.Pairwise fun a b =>
      ¬(a.is_active = true ∧ b.is_active = true ∧ a.calling_id = b.calling_id ∧
        a.member_id = b.member_id))
    {r1 r2 : SnapshotRow}
    (h1 : r1 ∈ snapshotQueryRows db) (h2 : r2 ∈ snapshotQueryRows db)
    (hk1 : r1.calling_org_name = r2.calling_org_name)
    (hk2 : r1.calling_title = r2.calling_title)
    (hk3 : r1.member_church_id = r2.member_church_id) : r1 = r2 := by
  rw [mem_snapshotQueryRows] at h1 h2
  obtain ⟨ca1, hca1, c1, hc1, o1, ho1, m1, hm1, cid1, hcid1, ⟨ha1, hb1, hx1, hd1⟩, rfl⟩ := h1
  obtain ⟨ca2, hca2, c2, hc2, o2, ho2, m2, hm2, cid2, hcid2, ⟨ha2, hb2, hx2, hd2⟩, rfl⟩ := h2
  have hk1' : o1.name = o2.name := hk1
  have hk2' : c1.title = c2.title := hk2
  have hk3' : cid1 = cid2 := hk3
  have hsymName : ∀ x y : Organization, x.name ≠ y.name → y.name ≠ x.name :=
    fun x y h => h ∘ Eq.symm
  have hsymKey : ∀ x y : Calling,
      ¬(x.organization_id = y.organization_id ∧ x.title = y.title) →
      ¬(y.organization_id = x.organization_id ∧ y.title = x.title) := by
    intro x y h hc
    exact h ⟨hc.1.symm, hc.2.symm⟩
  have hsymChurch : ∀ x y : Member,
      ¬(x.church_id ≠ none ∧ x.church_id = y.church_id) →
      ¬(y.church_id ≠ none ∧ y.church_id = x.church_id) := by
    intro x y h hc
    exact h ⟨hc.2 ▸ hc.1, hc.2.symm⟩
  have hsymActive : ∀ x y : CallingAssignment,
      ¬(x.is_active = true ∧ y.is_active = true ∧ x.calling_id = y.calling_id ∧
        x.member_id = y.member_id) →
      ¬(y.is_active = true ∧ x.is_active = true ∧ y.calling_id = x.calling_id ∧
        y.member_id = x.member_id) := by
    intro x y h hc
    exact h ⟨hc.2.1, hc.1, hc.2.2.1.symm, hc.2.2.2.symm⟩
  have hoEq : o1 = o2 :=
    eq_of_pairwise_of_mem hsymName h_org_names ho1 ho2 (fun h => h hk1')
  have hcEq : c1 = c2 :=
    eq_of_pairwise_of_mem hsymKey h_calling_keys hc1 hc2
      (fun h => h ⟨by rw [hx1, hoEq, ← hx2], hk2'⟩)
  have hmEq : m1 = m2 :=
    eq_of_pairwise_of_mem hsymChurch h_church_ids hm1 hm2
      (fun h => h ⟨by simp [hcid1], by rw [hcid1, hcid2, hk3']⟩)
  have hcaEq : ca1 = ca2 :=
    eq_of_pairwise_of_mem hsymActive h_one_active hca1 hca2
      (fun h => h ⟨ha1, ha2, by rw [hb1, hcEq, ← hb2], by rw [hd1, hmEq, ← hd2]⟩)
  subst hoEq hcEq hmEq hcaEq hk3'
  rfl

/-- C1: for an active `CallingAssignment` whose natural key (organization
name, calling title, member external id) is unchanged by a full sync run,
the expected-release-date and release-notes fields have the same values
after the restore step as in the pre-sync state, even though the
hard-refresh step deleted and recreated the row.  `db0` is the pre-sync
state from which `capture_pre_sync_snapshot` filled the snapshot, `db1` the
post-rebuild state (whose recreated assignment row carries NULL annotation
fields); the `Pairwise` hypotheses are the natural-key uniqueness invariants
of the data model. -/
theorem release_fields_preserved
    (db0 db1 : DB)
    (ca0 : CallingAssignment) (c0 : Calling) (o0 : Organization) (m0 : Member)
    (cid : Int)
    (ca1 : CallingAssignment) (c1 : Calling) (o1 : Organization) (m1 : Member)
    (h0_org_names : db0.organizations.Pairwise fun a b => a.name ≠ b.name)
    (h0_calling_keys : db0.callings.Pairwise fun a b =>
      ¬(a.organization_id = b.organization_id ∧ a.title = b.title))
    (h0_church_ids : db0.members.Pairwise fun a b =>
      ¬(a.church_id ≠ none ∧ a.church_id = b.church_id))
    (h0_one_active : db0.calling_assignments.Pairwise fun a b =>
      ¬(a.is_active = true ∧ b.is_active = true ∧ a.calling_id = b.calling_id ∧
        a.member_id = b.member_id))
    (h1_calling_ids : db1.callings.Pairwise fun a b => a.id ≠ b.id)
    (h1_org_ids : db1.organizations.Pairwise fun a b => a.id ≠ b.id)
    (h1_member_ids : db1.members.Pairwise fun a b => a.id ≠ b.id)
    (hsnap : db1.pre_sync_calling_snapshot =
      (capture_pre_sync_snapshot db0).pre_sync_calling_snapshot)
    (hca0 : ca0 ∈ db0.calling_assignments) (hca0a : ca0.is_active = true)
    (hc0 : c0 ∈ db0.callings) (hc0id : ca0.calling_id = c0.id)
    (ho0 : o0 ∈ db0.organizations) (ho0id : c0.organization_id = o0.id)
    (hm0 : m0 ∈ db0.members) (hm0id : ca0.member_id = m0.id)
    (hm0c : m0.church_id = some cid)
    (hca1 : ca1 ∈ db1.calling_assignments) (_hca1a : ca1.is_active = true)
    (hc1 : c1 ∈ db1.callings) (hc1id : ca1.calling_id = c1.id)
    (ho1 : o1 ∈ db1.organizations) (ho1id : c1.organization_id = o1.id)
    (hm1 : m1 ∈ db1.members) (hm1id : ca1.member_id = m1.id)
    (hm1c : m1.church_id = some cid)
    (hname : o1.name = o0.name) (htitle : c1.title = c0.title)
    (hfresh_erd : ca1.expected_release_date = none)
    (hfresh_notes : ca1.release_notes = none) :
    restoreAssignment db1.pre_sync_calling_snapshot db1.members db1.callings
        db1.organizations ca1 ∈ (restore_user_entered_data db1).calling_assignments ∧
    (restoreAssignment db1.pre_sync_calling_snapshot db1.members db1.callings
        db1.organizations ca1).expected_release_date = ca0.expected_release_date ∧
    (restoreAssignment db1.pre_sync_calling_snapshot db1.members db1.callings
        db1.organizations ca1).release_notes = ca0.release_notes := by
  -- the snapshot row produced by the pre-sync assignment
  have hrow0 : snapshotRowOf ca0 c0 o0 m0 cid ∈ snapshotQueryRows db0 :=
    mem_snapshotQueryRows.mpr
      ⟨ca0, hca0, c0, hc0, o0, ho0, m0, hm0, cid, hm0c,
        ⟨hca0a, hc0id, ho0id, hm0id⟩, rfl⟩
  -- the restore join matches a snapshot row exactly when its key is the
  -- assignment's natural key
  have hmatch_iff : ∀ pss : SnapshotRow,
      restoreJoinMatch db1.members db1.callings db1.organizations ca1 pss ↔
        (pss.calling_org_name = o1.name ∧ pss.calling_title = c1.title ∧
          pss.member_church_id = cid) := by
    intro pss
    have hsymId1 : ∀ x y : Calling, x.id ≠ y.id → y.id ≠ x.id :=
      fun x y h => h ∘ Eq.symm
    have hsymId2 : ∀ x y : Organization, x.id ≠ y.id → y.id ≠ x.id :=
      fun x y h => h ∘ Eq.symm
    have hsymId3 : ∀ x y : Member, x.id ≠ y.id → y.id ≠ x.id :=
      fun x y h => h ∘ Eq.symm
    constructor
    · rintro ⟨c, hc, o, ho, m, hm, hmc, hcid2, hoid2, hmid2, honame, hctitle⟩
      have hcEq : c = c1 :=
        eq_of_pairwise_of_mem hsymId1 h1_calling_ids hc hc1
          (fun h => h (by rw [← hcid2, hc1id]))
      have hoEq : o = o1 :=
        eq_of_pairwise_of_mem hsymId2 h1_org_ids ho ho1
          (fun h => h (by rw [← hoid2, hcEq, ho1id]))
      have hmEq : m = m1 :=
        eq_of_pairwise_of_mem hsymId3 h1_member_ids hm hm1
          (fun h => h (by rw [← hmid2, hm1id]))
      have hm1c2 : m1.church_id = some pss.member_church_id := hmEq ▸ hmc
      exact ⟨by rw [← honame, hoEq], by rw [← hctitle, hcEq],
        Option.some.inj (hm1c2.symm.trans hm1c)⟩
    · rintro ⟨hk1, hk2, hk3⟩
      exact ⟨c1, hc1, o1, ho1, m1, hm1, by rw [hk3]; exact hm1c, hc1id, ho1id,
        hm1id, hk1.symm, hk2.symm⟩
  -- analyse the find? of the restore step
  cases hfind : db1.pre_sync_calling_snapshot.find? (fun pss =>
      decide ((pss.expected_release_date ≠ none ∨ pss.release_notes ≠ none) ∧
              restoreJoinMatch db1.members db1.callings db1.organizations ca1 pss)) with
  | some pss =>
    have hpred := List.find?_some hfind
    simp only [decide_eq_true_eq] at hpred
    obtain ⟨hnn, hmatch⟩ := hpred
    have hkey := (hmatch_iff pss).mp hmatch
    have hpssmem : pss ∈ snapshotQueryRows db0 := by
      have hmem := List.mem_of_find?_eq_some hfind
      rw [hsnap] at hmem
      exact hmem
    have hpss_eq : pss = snapshotRowOf ca0 c0 o0 m0 cid :=
      snapshotQueryRows_key_unique db0 h0_org_names h0_calling_keys
        h0_church_ids h0_one_active hpssmem hrow0
        (by rw [hkey.1, hname]; rfl) (by rw [hkey.2.1, htitle]; rfl) hkey.2.2
    have hres : restoreAssignment db1.pre_sync_calling_snapshot db1.members
        db1.callings db1.organizations ca1 =
        { ca1 with expected_release_date := pss.expected_release_date,
                   release_notes := pss.release_notes } := by
      simp only [restoreAssignment, hfind]
    refine ⟨?_, ?_, ?_⟩
    · exact List.mem_map.mpr ⟨ca1, hca1, rfl⟩
    · rw [hres, hpss_eq]
      rfl
    · rw [hres, hpss_eq]
      rfl
  | none =>
    have hnone := List.find?_eq_none.mp hfind (snapshotRowOf ca0 c0 o0 m0 cid)
      (by rw [hsnap]; exact hrow0)
    simp only [decide_eq_true_eq, not_and] at hnone
    have hmatch0 : restoreJoinMatch db1.members db1.callings db1.organizations ca1
        (snapshotRowOf ca0 c0 o0 m0 cid) :=
      (hmatch_iff _).mpr ⟨hname.symm, htitle.symm, rfl⟩
    have hz : ¬((snapshotRowOf ca0 c0 o0 m0 cid).expected_release_date ≠ none ∨
        (snapshotRowOf ca0 c0 o0 m0 cid).release_notes ≠ none) := by
      intro hor
      exact hnone hor hmatch0
    have hz1 : ca0.expected_release_date = none := by
      by_contra hx
      exact hz (Or.inl hx)
    have hz2 : ca0.release_notes = none := by
      by_contra hx
      exact hz (Or.inr hx)
    have hres : restoreAssignment db1.pre_sync_calling_snapshot db1.members
        db1.callings db1.organizations ca1 = ca1 := by
      simp only [restoreAssignment, hfind]
    refine ⟨?_, ?_, ?_⟩
    · exact List.mem_map.mpr ⟨ca1, hca1, rfl⟩
    · rw [hres, hfresh_erd, hz1]
    · rw [hres, hfresh_notes, hz2]

/-- Concrete instance of C1: a "Teacher" assignment in "Relief Society" for
member 12345 annotated with expected release date 7 and a release note keeps
both after snapshot, hard refresh, rebuild and restore. -/
theorem release_fields_preserved_witness :
    (restoreAssignment
        [⟨"Relief Society", "Teacher", 12345, "Jane", "Doe", none, none, true,
          some 7, some "after conference"⟩]
        [⟨"m1", none, "Jane", "Doe", none, none, none, none, true, some 12345⟩]
        [⟨1, 1, "Teacher", true, 21⟩]
        [⟨1, "Relief Society", none, 3⟩]
        ⟨1, "m1", true, none, none, none, none, none⟩).expected_release_date =
      some 7 ∧
    (restoreAssignment
        [⟨"Relief Society", "Teacher", 12345, "Jane", "Doe", none, none, true,
          some 7, some "after conference"⟩]
        [⟨"m1", none, "Jane", "Doe", none, none, none, none, true, some 12345⟩]
        [⟨1, 1, "Teacher", true, 21⟩]
        [⟨1, "Relief Society", none, 3⟩]
        ⟨1, "m1", true, none, none, none, none, none⟩).release_notes =
      some "after conference" := by
  have h := release_fields_preserved
    ⟨[⟨"m1", none, "Jane", "Doe", none, none, none, none, true, some 12345⟩], [],
      [⟨1, "Relief Society", none, 3⟩], [⟨1, 1, "Teacher", true, 21⟩],
      [⟨1, "m1", true, none, none, none, some 7, some "after conference"⟩],
      [], [], [], [], 0⟩
    ⟨[⟨"m1", none, "Jane", "Doe", none, none, none, none, true, some 12345⟩], [],
      [⟨1, "Relief Society", none, 3⟩], [⟨1, 1, "Teacher", true, 21⟩],
      [⟨1, "m1", true, none, none, none, none, none⟩], [],
      [⟨"Relief Society", "Teacher", 12345, "Jane", "Doe", none, none, true,
        some 7, some "after conference"⟩],
      [], [], 0⟩
    ⟨1, "m1", true, none, none, none, some 7, some "after conference"⟩
    ⟨1, 1, "Teacher", true, 21⟩ ⟨1, "Relief Society", none, 3⟩
    ⟨"m1", none, "Jane", "Doe", none, none, none, none, true, some 12345⟩
    12345
    ⟨1, "m1", true, none, none, none, none, none⟩
    ⟨1, 1, "Teacher", true, 21⟩ ⟨1, "Relief Society", none, 3⟩
    ⟨"m1", none, "Jane", "Doe", none, none, none, none, true, some 12345⟩
    (by decide) (by decide) (by decide) (by decide)
    (by decide) (by decide) (by decide)
    (by decide)
    (by decide) rfl (by decide) rfl (by decide) rfl (by decide) rfl rfl
    (by decide) rfl (by decide) rfl (by decide) rfl (by decide) rfl rfl
    rfl rfl rfl rfl
  exact ⟨h.2.1, h.2.2⟩

/-! ## Detection fold lemmas (shared by C2 and C3) -/

/-- Membership characterization of the new-assignment detection query. -/
theorem mem_newAssignmentRows {db : DB} {r : NewAssignRow} :
    r ∈ newAssignmentRows db ↔
      ∃ ca ∈ db.calling_assignments, ∃ c ∈ db.callings, ∃ o ∈ db.organizations,
        ∃ m ∈ db.members, ∃ cid : Int, m.church_id = some cid ∧
          newRowCond db ca c o m cid ∧ newAssignRowOf ca c o m cid = r := by
  simp only [newAssignmentRows, List.mem_flatMap, List.mem_filterMap,
    Option.bind_eq_some, Option.ite_none_right_eq_some, Option.some.injEq]

/-- Closed form of the new-assignment detection loop: it appends the change
records and tasks of `newChangesFrom`/`newTasksFrom` and advances the id
sequence by one per row. -/
theorem foldl_processNewRow (rows : List NewAssignRow) (db : DB) :
    rows.foldl processNewRow db =
      { db with
        calling_changes := db.calling_changes ++ newChangesFrom rows db.next_change_id,
        tasks := db.tasks ++ newTasksFrom rows db.next_change_id,
        next_change_id := db.next_change_id + rows.length } := by
  induction rows generalizing db with
  | nil => simp [newChangesFrom, newTasksFrom]
  | cons r rs ih =>
    rw [List.foldl_cons, ih]
    cases db
    simp only [processNewRow, create_in_flight_calling_change, newChangesFrom,
      newTasksFrom, newChangeOfRow, tasksOfNewRow, DB.mk.injEq, List.append_assoc,
      List.singleton_append, List.cons_append, List.nil_append, List.length_cons,
      Bool.false_eq_true, if_false, and_true, true_and]
    omega

/-- Closed form of the release detection loop. -/
theorem foldl_processReleaseRow (rows : List ReleaseRow) (db : DB) :
    rows.foldl processReleaseRow db =
      { db with
        calling_changes := db.calling_changes ++ releaseChangesFrom rows db.next_change_id,
        tasks := db.tasks ++ releaseTasksFrom rows db.next_change_id,
        next_change_id := db.next_change_id + releaseCount rows } := by
  induction rows generalizing db with
  | nil => simp [releaseChangesFrom, releaseTasksFrom, releaseCount]
  | cons r rs ih =>
    rw [List.foldl_cons, ih]
    rcases hc : r.calling_id with _ | cid2 <;> rcases hm : r.member_id with _ | mid <;>
      cases db <;>
      simp only [processReleaseRow, create_in_flight_calling_change, hc, hm,
        releaseChangesFrom, releaseTasksFrom, releaseCount, changeOfReleaseRow,
        taskOfReleaseRow, List.countP_cons, DB.mk.injEq, List.append_assoc,
        List.singleton_append, List.cons_append, List.nil_append, if_true,
        decide_eq_true_eq, and_true, true_and] <;>
      simp [hc, hm] <;> omega

/-- A release loop over rows that all fail to resolve a current calling or
member changes nothing. -/
theorem foldl_processReleaseRow_skip (rows : List ReleaseRow) (db : DB)
    (h : ∀ r ∈ rows, r.calling_id = none ∨ r.member_id = none) :
    rows.foldl processReleaseRow db = db := by
  induction rows generalizing db with
  | nil => rfl
  | cons r rs ih =>
    rw [List.foldl_cons]
    have hr : processReleaseRow db r = db := by
      rcases h r (List.mem_cons_self r rs) with h1 | h1
      · simp [processReleaseRow, h1]
      · rcases hc : r.calling_id with _ | v <;> simp [processReleaseRow, h1, hc]
    rw [hr]
    exact ih db (fun x hx => h x (List.mem_cons_of_mem r hx))

/-- The release `LEFT JOIN` only reads the organization, calling and member
tables. -/
theorem releaseJoinRows_eq_of (db db2 : DB) (pss : SnapshotRow)
    (h1 : db.organizations = db2.organizations) (h2 : db.callings = db2.callings)
    (h3 : db.members = db2.members) :
    releaseJoinRows db pss = releaseJoinRows db2 pss := by
  unfold releaseJoinRows
  rw [h1, h2, h3]

/-- Every release row carries the natural key of its snapshot row. -/
theorem mem_releaseJoinRows_key {db : DB} {pss : SnapshotRow} {r : ReleaseRow}
    (h : r ∈ releaseJoinRows db pss) :
    r.org_name = pss.calling_org_name ∧ r.calling_title = pss.calling_title ∧
    r.member_church_id = pss.member_church_id := by
  simp only [releaseJoinRows, List.mem_flatMap, List.mem_map] at h
  obtain ⟨oOpt, _, cOpt, _, mOpt, _, rfl⟩ := h
  exact ⟨rfl, rfl, rfl⟩

/-- Every row of the new-assignment query gets a change record with its
(organization, title, new-member) triple and status `in_flight`. -/
theorem mem_newChangesFrom_of_mem {rows : List NewAssignRow} {r : NewAssignRow}
    (hr : r ∈ rows) (n : Nat) :
    ∃ cc ∈ newChangesFrom rows n, cc.calling_org_name = r.org_name ∧
      cc.calling_title = r.calling_title ∧
      cc.new_member_church_id = some r.member_church_id ∧
      cc.status = "in_flight" := by
  induction rows generalizing n with
  | nil => cases hr
  | cons x xs ih =>
    rcases List.mem_cons.mp hr with rfl | hr2
    · exact ⟨newChangeOfRow r n, List.mem_cons_self _ _, rfl, rfl, rfl, rfl⟩
    · obtain ⟨cc, hcc, hp⟩ := ih hr2 (n + 1)
      exact ⟨cc, List.mem_cons_of_mem _ hcc, hp⟩

/-- Every resolvable row of the release query gets a change record with its
(organization, title, released-member) triple and status `in_flight`. -/
theorem mem_releaseChangesFrom_of_mem {rows : List ReleaseRow} {r : ReleaseRow}
    (hr : r ∈ rows) (hcn : r.calling_id ≠ none) (hmn : r.member_id ≠ none) (n : Nat) :
    ∃ cc ∈ releaseChangesFrom rows n, cc.calling_org_name = r.org_name ∧
      cc.calling_title = r.calling_title ∧
      cc.current_member_church_id = some r.member_church_id ∧
      cc.status = "in_flight" := by
  induction rows generalizing n with
  | nil => cases hr
  | cons x xs ih =>
    rcases List.mem_cons.mp hr with rfl | hr2
    · rcases hc : r.calling_id with _ | cid2
      · exact absurd hc hcn
      · rcases hm : r.member_id with _ | mid
        · exact absurd hm hmn
        · refine ⟨changeOfReleaseRow r cid2 mid n, ?_, rfl, rfl, rfl, rfl⟩
          simp only [releaseChangesFrom, hc, hm]
          exact List.mem_cons_self _ _
    · rcases hc : x.calling_id with _ | cid2
      · obtain ⟨cc, hcc, hp⟩ := ih hr2 n
        refine ⟨cc, ?_, hp⟩
        simp only [releaseChangesFrom, hc]
        exact hcc
      · rcases hm : x.member_id with _ | mid
        · obtain ⟨cc, hcc, hp⟩ := ih hr2 n
          refine ⟨cc, ?_, hp⟩
          simp only [releaseChangesFrom, hc, hm]
          exact hcc
        · obtain ⟨cc, hcc, hp⟩ := ih hr2 (n + 1)
          refine ⟨cc, ?_, hp⟩
          simp only [releaseChangesFrom, hc, hm]
          exact List.mem_cons_of_mem _ hcc

/-- Change records created for releases never carry a new member id. -/
theorem releaseChangesFrom_new_none {rows : List ReleaseRow} {n : Nat} :
    ∀ cc ∈ releaseChangesFrom rows n, cc.new_member_church_id = none := by
  induction rows generalizing n with
  | nil => intro cc hcc; cases hcc
  | cons x xs ih =>
    intro cc hcc
    rcases hc : x.calling_id with _ | cid2
    · rw [releaseChangesFrom, hc] at hcc
      exact ih cc hcc
    · rcases hm : x.member_id with _ | mid
      · rw [releaseChangesFrom, hc, hm] at hcc
        exact ih cc hcc
      · rw [releaseChangesFrom, hc, hm] at hcc
        rcases List.mem_cons.mp hcc with rfl | hcc2
        · rfl
        · exact ih cc hcc2

/-- All tasks materialized for one new-assignment row carry its change id. -/
theorem tasksOfNewRow_id {r : NewAssignRow} {n : Nat} :
    ∀ t ∈ tasksOfNewRow r n, t.calling_change_id = n := by
  intro t ht
  by_cases hs : r.set_apart_date = none
  · simp only [tasksOfNewRow, if_pos hs, List.cons_append, List.nil_append,
      List.mem_cons, List.not_mem_nil, or_false] at ht
    rcases ht with rfl | rfl | rfl <;> rfl
  · simp only [tasksOfNewRow, if_neg hs, List.nil_append, List.mem_cons,
      List.not_mem_nil, or_false] at ht
    rcases ht with rfl
    rfl

/-- All tasks materialized for one new-assignment row are pending. -/
theorem tasksOfNewRow_status {r : NewAssignRow} {n : Nat} :
    ∀ t ∈ tasksOfNewRow r n, t.status = "pending" := by
  intro t ht
  by_cases hs : r.set_apart_date = none
  · simp only [tasksOfNewRow, if_pos hs, List.cons_append, List.nil_append,
      List.mem_cons, List.not_mem_nil, or_false] at ht
    rcases ht with rfl | rfl | rfl <;> rfl
  · simp only [tasksOfNewRow, if_neg hs, List.nil_append, List.mem_cons,
      List.not_mem_nil, or_false] at ht
    rcases ht with rfl
    rfl

/-- Ids of the tasks appended by the new-assignment loop start at `n`. -/
theorem newTasksFrom_id_ge {rows : List NewAssignRow} {n : Nat} :
    ∀ t ∈ newTasksFrom rows n, n ≤ t.calling_change_id := by
  induction rows generalizing n with
  | nil => intro t ht; cases ht
  | cons r rs ih =>
    intro t ht
    rcases List.mem_append.mp ht with h | h
    · rw [tasksOfNewRow_id t h]
    · exact Nat.le_of_succ_le (ih t h)

/-- Every task appended by the new-assignment loop is pending. -/
theorem newTasksFrom_status {rows : List NewAssignRow} {n : Nat} :
    ∀ t ∈ newTasksFrom rows n, t.status = "pending" := by
  induction rows generalizing n with
  | nil => intro t ht; cases ht
  | cons r rs ih =>
    intro t ht
    rcases List.mem_append.mp ht with h | h
    · exact tasksOfNewRow_status t h
    · exact ih t h

/-- Ids of the tasks appended by the release loop start at `n`. -/
theorem releaseTasksFrom_id_ge {rows : List ReleaseRow} {n : Nat} :
    ∀ t ∈ releaseTasksFrom rows n, n ≤ t.calling_change_id := by
  induction rows generalizing n with
  | nil => intro t ht; cases ht
  | cons x xs ih =>
    intro t ht
    rcases hc : x.calling_id with _ | cid2
    · rw [releaseTasksFrom, hc] at ht
      exact ih t ht
    · rcases hm : x.member_id with _ | mid
      · rw [releaseTasksFrom, hc, hm] at ht
        exact ih t ht
      · rw [releaseTasksFrom, hc, hm] at ht
        rcases List.mem_cons.mp ht with rfl | ht2
        · exact Nat.le_refl n
        · exact Nat.le_of_succ_le (ih t ht2)

/-- Every task appended by the release loop is pending. -/
theorem releaseTasksFrom_status {rows : List ReleaseRow} {n : Nat} :
    ∀ t ∈ releaseTasksFrom rows n, t.status = "pending" := by
  induction rows generalizing n with
  | nil => intro t ht; cases ht
  | cons x xs ih =>
    intro t ht
    rcases hc : x.calling_id with _ | cid2
    · rw [releaseTasksFrom, hc] at ht
      exact ih t ht
    · rcases hm : x.member_id with _ | mid
      · rw [releaseTasksFrom, hc, hm] at ht
        exact ih t ht
      · rw [releaseTasksFrom, hc, hm] at ht
        rcases List.mem_cons.mp ht with rfl | ht2
        · rfl
        · exact ih t ht2

/-- Provenance of the change records appended by the new-assignment loop. -/
theorem mem_newChangesFrom {rows : List NewAssignRow} {n : Nat} {cc : CallingChange}
    (h : cc ∈ newChangesFrom rows n) :
    ∃ r ∈ rows, ∃ k, n ≤ k ∧ cc = newChangeOfRow r k := by
  induction rows generalizing n with
  | nil => cases h
  | cons x xs ih =>
    rcases List.mem_cons.mp h with rfl | h2
    · exact ⟨x, List.mem_cons_self _ _, n, Nat.le_refl n, rfl⟩
    · obtain ⟨r, hr, k, hk, rfl⟩ := ih h2
      exact ⟨r, List.mem_cons_of_mem _ hr, k, Nat.le_of_succ_le hk, rfl⟩

/-- When exactly one query row satisfies `pr` (and that row is `row0`), the
new-assignment loop creates exactly one matching change record, under some
fresh id `k`, and the tasks filed under `k` are exactly that row's tasks. -/
theorem newChangesFrom_filter_single (rows : List NewAssignRow) (n : Nat)
    (pr : NewAssignRow → Bool) (pc : CallingChange → Bool)
    (hcompat : ∀ r k, pc (newChangeOfRow r k) = pr r)
    (row0 : NewAssignRow)
    (hcount : rows.countP pr = 1)
    (huniq : ∀ r ∈ rows, pr r = true → r = row0) :
    ∃ k, n ≤ k ∧ k < n + rows.length ∧
      (newChangesFrom rows n).filter pc = [newChangeOfRow row0 k] ∧
      (newTasksFrom rows n).filter (fun t => decide (t.calling_change_id = k)) =
        tasksOfNewRow row0 k := by
  induction rows generalizing n with
  | nil => simp at hcount
  | cons r rs ih =>
    by_cases hpr : pr r = true
    · have hr0 : r = row0 := huniq r (List.mem_cons_self r rs) hpr
      subst hr0
      have hz : rs.countP pr = 0 := by
        rw [List.countP_cons, if_pos hpr] at hcount
        omega
      refine ⟨n, Nat.le_refl n, by simp, ?_, ?_⟩
      · rw [newChangesFrom, List.filter_cons]
        rw [hcompat r n, if_pos hpr]
        have htail : (newChangesFrom rs (n + 1)).filter pc = [] := by
          rw [List.filter_eq_nil_iff]
          intro cc hcc
          obtain ⟨x, hx, k, _, rfl⟩ := mem_newChangesFrom hcc
          rw [hcompat]
          exact List.countP_eq_zero.mp hz x hx
        rw [htail]
      · rw [newTasksFrom, List.filter_append]
        have hhead : (tasksOfNewRow r n).filter
            (fun t => decide (t.calling_change_id = n)) = tasksOfNewRow r n := by
          rw [List.filter_eq_self]
          intro t ht
          simp [tasksOfNewRow_id t ht]
        have htail : (newTasksFrom rs (n + 1)).filter
            (fun t => decide (t.calling_change_id = n)) = [] := by
          rw [List.filter_eq_nil_iff]
          intro t ht
          have := newTasksFrom_id_ge t ht
          simp only [decide_eq_true_eq]
          omega
        rw [hhead, htail, List.append_nil]
    · have hcount2 : rs.countP pr = 1 := by
        rw [List.countP_cons, if_neg hpr] at hcount
        omega
      obtain ⟨k, hk1, hk2, hf, ht⟩ := ih (n + 1) hcount2
        (fun x hx hp => huniq x (List.mem_cons_of_mem _ hx) hp)
      refine ⟨k, Nat.le_of_succ_le hk1, by simp only [List.length_cons]; omega, ?_, ?_⟩
      · rw [newChangesFrom, List.filter_cons, hcompat r n, if_neg hpr]
        exact hf
      · rw [newTasksFrom, List.filter_append]
        have hhead : (tasksOfNewRow r n).filter
            (fun t => decide (t.calling_change_id = k)) = [] := by
          rw [List.filter_eq_nil_iff]
          intro t hmem
          have := tasksOfNewRow_id t hmem
          simp only [decide_eq_true_eq]
          omega
        rw [hhead, List.nil_append]
        exact ht

/-! ## Counting lemmas for the new-assignment query (claim C2) -/

/-- Symmetry helpers for the pairwise natural-key invariants. -/
theorem callingKey_sym : ∀ x y : Calling,
    ¬(x.organization_id = y.organization_id ∧ x.title = y.title) →
    ¬(y.organization_id = x.organization_id ∧ y.title = x.title) := by
  intro x y h hc
  exact h ⟨hc.1.symm, hc.2.symm⟩

/-- Symmetry of the unique-external-id invariant. -/
theorem churchId_sym : ∀ x y : Member,
    ¬(x.church_id ≠ none ∧ x.church_id = y.church_id) →
    ¬(y.church_id ≠ none ∧ y.church_id = x.church_id) := by
  intro x y h hc
  exact h ⟨hc.2 ▸ hc.1, hc.2.symm⟩

/-- Symmetry of the single-active-assignment invariant. -/
theorem activeKey_sym : ∀ x y : CallingAssignment,
    ¬(x.is_active = true ∧ y.is_active = true ∧ x.calling_id = y.calling_id ∧
      x.member_id = y.member_id) →
    ¬(y.is_active = true ∧ x.is_active = true ∧ y.calling_id = x.calling_id ∧
      y.member_id = x.member_id) := by
  intro x y h hc
  exact h ⟨hc.2.1, hc.1, hc.2.2.1.symm, hc.2.2.2.symm⟩

/-- Provenance of a qualifying join combination: under the natural-key
uniqueness invariants, any join combination passing the new-assignment
`WHERE` clause whose natural key is the key of `(ca, c, o, m, cid)` consists
of exactly those rows. -/
theorem newRow_provenance (db : DB)
    (h_org_names : db.organizations.Pairwise fun a b => a.name ≠ b.name)
    (h_calling_keys : db.callings.Pairwise fun a b =>
      ¬(a.organization_id = b.organization_id ∧ a.title = b.title))
    (h_church_ids : db.members.Pairwise fun a b =>
      ¬(a.church_id ≠ none ∧ a.church_id = b.church_id))
    (h_one_active : db.calling_assignments.Pairwise fun a b =>
      ¬(a.is_active = true ∧ b.is_active = true ∧ a.calling_id = b.calling_id ∧
        a.member_id = b.member_id))
    {ca : CallingAssignment} {c : Calling} {o : Organization} {m : Member} {cid : Int}
    (hca : ca ∈ db.calling_assignments) (hact : ca.is_active = true)
    (hc : c ∈ db.callings) (hcid : ca.calling_id = c.id)
    (ho : o ∈ db.organizations) (hoid : c.organization_id = o.id)
    (hm : m ∈ db.members) (hmid : ca.member_id = m.id) (hmc : m.church_id = some cid)
    {ca2 : CallingAssignment} {c2 : Calling} {o2 : Organization} {m2 : Member} {cid2 : Int}
    (hca2 : ca2 ∈ db.calling_assignments) (hc2 : c2 ∈ db.callings)
    (ho2 : o2 ∈ db.organizations) (hm2 : m2 ∈ db.members)
    (hmc2 : m2.church_id = some cid2)
    (hcond : newRowCond db ca2 c2 o2 m2 cid2)
    (hkey1 : o2.name = o.name) (hkey2 : c2.title = c.title) (hkey3 : cid2 = cid) :
    ca2 = ca ∧ c2 = c ∧ o2 = o ∧ m2 = m := by
  obtain ⟨hact2, hcid2x, hoid2x, hmid2x, _, _⟩ := hcond
  have hsymName : ∀ x y : Organization, x.name ≠ y.name → y.name ≠ x.name :=
    fun x y h => h ∘ Eq.symm
  have hoEq : o2 = o :=
    eq_of_pairwise_of_mem hsymName h_org_names ho2 ho (fun h => h hkey1)
  have hcEq : c2 = c :=
    eq_of_pairwise_of_mem callingKey_sym h_calling_keys hc2 hc
      (fun h => h ⟨by rw [hoid2x, hoEq, ← hoid], hkey2⟩)
  have hmEq : m2 = m :=
    eq_of_pairwise_of_mem churchId_sym h_church_ids hm2 hm
      (fun h => h ⟨by simp [hmc2], by rw [hmc2, hmc, hkey3]⟩)
  have hcaEq : ca2 = ca :=
    eq_of_pairwise_of_mem activeKey_sym h_one_active hca2 hca
      (fun h => h ⟨hact2, hact, by rw [hcid2x, hcEq, ← hcid],
        by rw [hmid2x, hmEq, ← hmid]⟩)
  exact ⟨hcaEq, hcEq, hoEq, hmEq⟩

/-- A member's contribution to the new-assignment query: when it is counted,
the member carries a church id and its row passes the `WHERE` clause. -/
theorem memberContrib_eq_true {db : DB} {ca : CallingAssignment} {c : Calling}
    {o : Organization} {p : NewAssignRow → Bool} {x : Member}
    (h : ((x.church_id.bind fun cid2 =>
        if newRowCond db ca c o x cid2 then some (newAssignRowOf ca c o x cid2)
        else none).map p).getD false = true) :
    ∃ cidx : Int, x.church_id = some cidx ∧ newRowCond db ca c o x cidx ∧
      p (newAssignRowOf ca c o x cidx) = true := by
  rcases hax : x.church_id with _ | cida
  · rw [hax] at h
    simp at h
  · rw [hax, Option.some_bind] at h
    by_cases hcnd : newRowCond db ca c o x cida
    · rw [if_pos hcnd] at h
      simp only [Option.map_some', Option.getD_some] at h
      exact ⟨cida, rfl, hcnd, h⟩
    · rw [if_neg hcnd] at h
      simp at h

/-- Under the natural-key uniqueness invariants, a qualifying assignment
gives exactly one new-assignment query row carrying its natural key, and
every query row carrying that key is the row built from the assignment's
own join. -/
theorem countP_newAssignmentRows (db : DB)
    (h_org_ids : db.organizations.Pairwise fun a b => a.id ≠ b.id)
    (h_org_names : db.organizations.Pairwise fun a b => a.name ≠ b.name)
    (h_calling_ids : db.callings.Pairwise fun a b => a.id ≠ b.id)
    (h_calling_keys : db.callings.Pairwise fun a b =>
      ¬(a.organization_id = b.organization_id ∧ a.title = b.title))
    (h_church_ids : db.members.Pairwise fun a b =>
      ¬(a.church_id ≠ none ∧ a.church_id = b.church_id))
    (h_one_active : db.calling_assignments.Pairwise fun a b =>
      ¬(a.is_active = true ∧ b.is_active = true ∧ a.calling_id = b.calling_id ∧
        a.member_id = b.member_id))
    {ca : CallingAssignment} {c : Calling} {o : Organization} {m : Member} {cid : Int}
    (hca : ca ∈ db.calling_assignments) (hact : ca.is_active = true)
    (hc : c ∈ db.callings) (hcid : ca.calling_id = c.id)
    (ho : o ∈ db.organizations) (hoid : c.organization_id = o.id)
    (hm : m ∈ db.members) (hmid : ca.member_id = m.id) (hmc : m.church_id = some cid)
    (hcond0 : newRowCond db ca c o m cid) :
    (newAssignmentRows db).countP (fun r => decide (r.org_name = o.name ∧
      r.calling_title = c.title ∧ r.member_church_id = cid)) = 1 ∧
    (∀ r ∈ newAssignmentRows db,
      r.org_name = o.name ∧ r.calling_title = c.title ∧ r.member_church_id = cid →
      r = newAssignRowOf ca c o m cid) := by
  constructor
  · unfold newAssignmentRows
    refine (countP_flatMap_eq _ _ _ (fun ca2 => decide (ca2 = ca)) ?_).trans ?_
    · intro ca2 hca2mem
      by_cases hx : ca2 = ca
      · rw [hx, if_pos (by simp)]
        refine (countP_flatMap_eq _ _ _ (fun c2 => decide (c2 = c)) ?_).trans ?_
        · intro c2 hc2mem
          by_cases hxc : c2 = c
          · rw [hxc, if_pos (by simp)]
            refine (countP_flatMap_eq _ _ _ (fun o2 => decide (o2 = o)) ?_).trans ?_
            · intro o2 ho2mem
              by_cases hxo : o2 = o
              · rw [hxo, if_pos (by simp)]
                rw [List.countP_filterMap]
                refine countP_eq_one_of_mem_unique hm ?_ ?_
                · rw [hmc, Option.some_bind, if_pos hcond0]
                  simp [newAssignRowOf]
                · refine h_church_ids.imp ?_
                  intro a b hR hcon
                  obtain ⟨hga, hgb⟩ := hcon
                  obtain ⟨cida, hax, _, hpa⟩ := memberContrib_eq_true hga
                  obtain ⟨cidb, hbx, _, hpb⟩ := memberContrib_eq_true hgb
                  have hpa2 : cida = cid := (of_decide_eq_true hpa).2.2
                  have hpb2 : cidb = cid := (of_decide_eq_true hpb).2.2
                  refine hR ⟨by simp [hax], ?_⟩
                  rw [hax, hbx, hpa2, hpb2]
              · rw [if_neg (by simp [hxo]), List.countP_eq_zero]
                intro r hr
                simp only [List.mem_filterMap, Option.bind_eq_some,
                  Option.ite_none_right_eq_some, Option.some.injEq] at hr
                obtain ⟨m2, hm2mem, cid2, hmc2, hcond2, rfl⟩ := hr
                intro hp
                have hp2 := of_decide_eq_true hp
                have hk1 : o2.name = o.name := hp2.1
                have hk2 : c.title = c.title := hp2.2.1
                have hk3 : cid2 = cid := hp2.2.2
                obtain ⟨_, _, hoE, _⟩ := newRow_provenance db h_org_names
                  h_calling_keys h_church_ids h_one_active hca hact hc hcid ho hoid
                  hm hmid hmc hca hc ho2mem hm2mem hmc2 hcond2
                  hk1 hk2 hk3
                exact hxo hoE
            · refine countP_eq_one_of_mem_unique ho (by simp) ?_
              refine h_org_ids.imp ?_
              intro a b hR hcon
              simp only [decide_eq_true_eq] at hcon
              exact hR (by rw [hcon.1, hcon.2])
          · rw [if_neg (by simp [hxc]), List.countP_eq_zero]
            intro r hr
            simp only [List.mem_flatMap, List.mem_filterMap, Option.bind_eq_some,
              Option.ite_none_right_eq_some, Option.some.injEq] at hr
            obtain ⟨o2, ho2mem, m2, hm2mem, cid2, hmc2, hcond2, rfl⟩ := hr
            intro hp
            have hp2 := of_decide_eq_true hp
            have hk1 : o2.name = o.name := hp2.1
            have hk2 : c2.title = c.title := hp2.2.1
            have hk3 : cid2 = cid := hp2.2.2
            obtain ⟨_, hcE, _, _⟩ := newRow_provenance db h_org_names
              h_calling_keys h_church_ids h_one_active hca hact hc hcid ho hoid
              hm hmid hmc hca hc2mem ho2mem hm2mem hmc2 hcond2
              hk1 hk2 hk3
            exact hxc hcE
        · refine countP_eq_one_of_mem_unique hc (by simp) ?_
          refine h_calling_ids.imp ?_
          intro a b hR hcon
          simp only [decide_eq_true_eq] at hcon
          exact hR (by rw [hcon.1, hcon.2])
      · rw [if_neg (by simp [hx]), List.countP_eq_zero]
        intro r hr
        simp only [List.mem_flatMap, List.mem_filterMap, Option.bind_eq_some,
          Option.ite_none_right_eq_some, Option.some.injEq] at hr
        obtain ⟨c2, hc2mem, o2, ho2mem, m2, hm2mem, cid2, hmc2, hcond2, rfl⟩ := hr
        intro hp
        have hp2 := of_decide_eq_true hp
        have hk1 : o2.name = o.name := hp2.1
        have hk2 : c2.title = c.title := hp2.2.1
        have hk3 : cid2 = cid := hp2.2.2
        obtain ⟨hcaE, _, _, _⟩ := newRow_provenance db h_org_names
          h_calling_keys h_church_ids h_one_active hca hact hc hcid ho hoid
          hm hmid hmc hca2mem hc2mem ho2mem hm2mem hmc2 hcond2
          hk1 hk2 hk3
        exact hx hcaE
    · refine countP_eq_one_of_mem_unique hca (by simp) ?_
      refine h_one_active.imp ?_
      intro a b hR hcon
      simp only [decide_eq_true_eq] at hcon
      obtain ⟨ha2, hb2⟩ := hcon
      subst ha2
      subst hb2
      exact hR ⟨hact, hact, rfl, rfl⟩
  · intro r hr hkey
    rw [mem_newAssignmentRows] at hr
    obtain ⟨ca2, hca2mem, c2, hc2mem, o2, ho2mem, m2, hm2mem, cid2, hmc2, hcond2, rfl⟩ := hr
    have hk1 : o2.name = o.name := hkey.1
    have hk2 : c2.title = c.title := hkey.2.1
    have hk3 : cid2 = cid := hkey.2.2
    obtain ⟨hcaE, hcE, hoE, hmE⟩ := newRow_provenance db h_org_names
      h_calling_keys h_church_ids h_one_active hca hact hc hcid ho hoid
      hm hmid hmc hca2mem hc2mem ho2mem hm2mem hmc2 hcond2
      hk1 hk2 hk3
    rw [hcaE, hcE, hoE, hmE, hk3]

/-! ## Claim C2 -/

/-- Filtering tasks by change id and type splits into two filters. -/
theorem filter_task_split (L : List Task) (k : Nat) (ty : String) :
    L.filter (fun t => decide (t.calling_change_id = k ∧ t.task_type = ty)) =
    (L.filter (fun t => decide (t.calling_change_id = k))).filter
      (fun t => decide (t.task_type = ty)) := by
  rw [List.filter_filter]
  apply List.filter_congr
  intro a _
  by_cases h1 : a.calling_change_id = k <;> by_cases h2 : a.task_type = ty <;>
    simp [h1, h2]

/-- C2: for an active post-rebuild assignment whose natural key is absent
from the snapshot and not targeted by any non-completed change record,
`detect_in_flight_callings` creates exactly one change record for its
(organization, title, new member) triple, with status `in_flight`, exactly
one pending notify-organization task filed under that record, and — exactly
when the assignment carries no set-apart date — one pending set-apart task
and one pending record-set-apart task; every task filed under the record is
pending.  The `Pairwise` hypotheses are the natural-key uniqueness
invariants of the data model. -/
theorem in_flight_new_assignment (db : DB)
    (h_org_ids : db.organizations.Pairwise fun a b => a.id ≠ b.id)
    (h_org_names : db.organizations.Pairwise fun a b => a.name ≠ b.name)
    (h_calling_ids : db.callings.Pairwise fun a b => a.id ≠ b.id)
    (h_calling_keys : db.callings.Pairwise fun a b =>
      ¬(a.organization_id = b.organization_id ∧ a.title = b.title))
    (h_church_ids : db.members.Pairwise fun a b =>
      ¬(a.church_id ≠ none ∧ a.church_id = b.church_id))
    (h_one_active : db.calling_assignments.Pairwise fun a b =>
      ¬(a.is_active = true ∧ b.is_active = true ∧ a.calling_id = b.calling_id ∧
        a.member_id = b.member_id))
    (ca : CallingAssignment) (c : Calling) (o : Organization) (m : Member) (cid : Int)
    (hca : ca ∈ db.calling_assignments) (hact : ca.is_active = true)
    (hc : c ∈ db.callings) (hcid : ca.calling_id = c.id)
    (ho : o ∈ db.organizations) (hoid : c.organization_id = o.id)
    (hm : m ∈ db.members) (hmid : ca.member_id = m.id) (hmc : m.church_id = some cid)
    (hsnapX : ∀ pss ∈ db.pre_sync_calling_snapshot,
      ¬(pss.calling_org_name = o.name ∧ pss.calling_title = c.title ∧
        pss.member_church_id = cid))
    (hnocc : ∀ cc ∈ db.calling_changes,
      ¬(cc.calling_org_name = o.name ∧ cc.calling_title = c.title ∧
        cc.new_member_church_id = some cid ∧ cc.status ≠ "completed")) :
    ∃ rec : CallingChange,
      ((detect_in_flight_callings db).calling_changes.drop
          db.calling_changes.length).filter
        (fun cc => decide (cc.calling_org_name = o.name ∧
          cc.calling_title = c.title ∧ cc.new_member_church_id = some cid)) = [rec] ∧
      rec.status = "in_flight" ∧
      (((detect_in_flight_callings db).tasks.drop db.tasks.length).filter
        (fun t => decide (t.calling_change_id = rec.id ∧
          t.task_type = "notify_organization"))).length = 1 ∧
      (((detect_in_flight_callings db).tasks.drop db.tasks.length).filter
        (fun t => decide (t.calling_change_id = rec.id ∧
          t.task_type = "set_apart"))).length =
        (if ca.set_apart_date = none then 1 else 0) ∧
      (((detect_in_flight_callings db).tasks.drop db.tasks.length).filter
        (fun t => decide (t.calling_change_id = rec.id ∧
          t.task_type = "record_set_apart"))).length =
        (if ca.set_apart_date = none then 1 else 0) ∧
      (∀ t ∈ (detect_in_flight_callings db).tasks.drop db.tasks.length,
        t.calling_change_id = rec.id → t.status = "pending") := by
  have hcond0 : newRowCond db ca c o m cid := ⟨hact, hcid, hoid, hmid, hsnapX, hnocc⟩
  obtain ⟨hcount, huniq⟩ := countP_newAssignmentRows db h_org_ids h_org_names
    h_calling_ids h_calling_keys h_church_ids h_one_active hca hact hc hcid ho hoid
    hm hmid hmc hcond0
  have huniq2 : ∀ r ∈ newAssignmentRows db,
      (fun r : NewAssignRow => decide (r.org_name = o.name ∧
        r.calling_title = c.title ∧ r.member_church_id = cid)) r = true →
      r = newAssignRowOf ca c o m cid :=
    fun r hr hp => huniq r hr (of_decide_eq_true hp)
  have hcompat : ∀ (r : NewAssignRow) (k : Nat),
      decide ((newChangeOfRow r k).calling_org_name = o.name ∧
        (newChangeOfRow r k).calling_title = c.title ∧
        (newChangeOfRow r k).new_member_church_id = some cid) =
      decide (r.org_name = o.name ∧ r.calling_title = c.title ∧
        r.member_church_id = cid) := by
    intro r k
    simp only [newChangeOfRow, decide_eq_decide, Option.some.injEq]
  obtain ⟨k, hk1, hk2, hfilter, htasks⟩ := newChangesFrom_filter_single
    (newAssignmentRows db) db.next_change_id
    (fun r : NewAssignRow => decide (r.org_name = o.name ∧
      r.calling_title = c.title ∧ r.member_church_id = cid))
    (fun cc : CallingChange => decide (cc.calling_org_name = o.name ∧
      cc.calling_title = c.title ∧ cc.new_member_church_id = some cid))
    hcompat (newAssignRowOf ca c o m cid) hcount huniq2
  -- decompose the detection run
  have hccs : (detect_in_flight_callings db).calling_changes =
      ((newAssignmentRows db).foldl processNewRow db).calling_changes ++
        releaseChangesFrom
          (releaseRows ((newAssignmentRows db).foldl processNewRow db))
          ((newAssignmentRows db).foldl processNewRow db).next_change_id := by
    show ((releaseRows ((newAssignmentRows db).foldl processNewRow db)).foldl
      processReleaseRow ((newAssignmentRows db).foldl processNewRow db)).calling_changes = _
    rw [foldl_processReleaseRow]
  have htksX : (detect_in_flight_callings db).tasks =
      ((newAssignmentRows db).foldl processNewRow db).tasks ++
        releaseTasksFrom
          (releaseRows ((newAssignmentRows db).foldl processNewRow db))
          ((newAssignmentRows db).foldl processNewRow db).next_change_id := by
    show ((releaseRows ((newAssignmentRows db).foldl processNewRow db)).foldl
      processReleaseRow ((newAssignmentRows db).foldl processNewRow db)).tasks = _
    rw [foldl_processReleaseRow]
  have hcc1 : ((newAssignmentRows db).foldl processNewRow db).calling_changes =
      db.calling_changes ++
        newChangesFrom (newAssignmentRows db) db.next_change_id := by
    rw [foldl_processNewRow]
  have htk1 : ((newAssignmentRows db).foldl processNewRow db).tasks =
      db.tasks ++ newTasksFrom (newAssignmentRows db) db.next_change_id := by
    rw [foldl_processNewRow]
  have hnext1 : ((newAssignmentRows db).foldl processNewRow db).next_change_id =
      db.next_change_id + (newAssignmentRows db).length := by
    rw [foldl_processNewRow]
  have hdropC : (detect_in_flight_callings db).calling_changes.drop
      db.calling_changes.length =
      newChangesFrom (newAssignmentRows db) db.next_change_id ++
        releaseChangesFrom
          (releaseRows ((newAssignmentRows db).foldl processNewRow db))
          ((newAssignmentRows db).foldl processNewRow db).next_change_id := by
    rw [hccs, hcc1, List.append_assoc, List.drop_left]
  have hdropT : (detect_in_flight_callings db).tasks.drop db.tasks.length =
      newTasksFrom (newAssignmentRows db) db.next_change_id ++
        releaseTasksFrom
          (releaseRows ((newAssignmentRows db).foldl processNewRow db))
          ((newAssignmentRows db).foldl processNewRow db).next_change_id := by
    rw [htksX, htk1, List.append_assoc, List.drop_left]
  have hid : (newChangeOfRow (newAssignRowOf ca c o m cid) k).id = k := rfl
  have hrelT : (releaseTasksFrom
      (releaseRows ((newAssignmentRows db).foldl processNewRow db))
      ((newAssignmentRows db).foldl processNewRow db).next_change_id).filter
      (fun t => decide (t.calling_change_id = k)) = [] := by
    rw [List.filter_eq_nil_iff]
    intro t ht
    have hge := releaseTasksFrom_id_ge t ht
    rw [hnext1] at hge
    simp only [decide_eq_true_eq]
    omega
  refine ⟨newChangeOfRow (newAssignRowOf ca c o m cid) k, ?_, rfl, ?_, ?_, ?_, ?_⟩
  · -- exactly one matching change record
    rw [hdropC, List.filter_append, hfilter]
    have hrel : (releaseChangesFrom
        (releaseRows ((newAssignmentRows db).foldl processNewRow db))
        ((newAssignmentRows db).foldl processNewRow db).next_change_id).filter
        (fun cc => decide (cc.calling_org_name = o.name ∧
          cc.calling_title = c.title ∧ cc.new_member_church_id = some cid)) = [] := by
      rw [List.filter_eq_nil_iff]
      intro cc hcc
      have hn := releaseChangesFrom_new_none cc hcc
      simp [hn]
    rw [hrel]
    simp
  · -- exactly one notify-organization task under the new record's id
    rw [hdropT, filter_task_split, hid, List.filter_append, htasks, hrelT,
      List.append_nil]
    by_cases hs : ca.set_apart_date = none
    · have hs2 : (newAssignRowOf ca c o m cid).set_apart_date = none := hs
      simp [tasksOfNewRow, hs2]
    · have hs2 : ¬((newAssignRowOf ca c o m cid).set_apart_date = none) := hs
      simp [tasksOfNewRow, hs2]
  · -- set-apart task exactly when no set-apart date
    rw [hdropT, filter_task_split, hid, List.filter_append, htasks, hrelT,
      List.append_nil]
    by_cases hs : ca.set_apart_date = none
    · have hs2 : (newAssignRowOf ca c o m cid).set_apart_date = none := hs
      simp [tasksOfNewRow, hs2, hs]
    · have hs2 : ¬((newAssignRowOf ca c o m cid).set_apart_date = none) := hs
      simp [tasksOfNewRow, hs2, hs]
  · -- record-set-apart task exactly when no set-apart date
    rw [hdropT, filter_task_split, hid, List.filter_append, htasks, hrelT,
      List.append_nil]
    by_cases hs : ca.set_apart_date = none
    · have hs2 : (newAssignRowOf ca c o m cid).set_apart_date = none := hs
      simp [tasksOfNewRow, hs2, hs]
    · have hs2 : ¬((newAssignRowOf ca c o m cid).set_apart_date = none) := hs
      simp [tasksOfNewRow, hs2, hs]
  · -- every new task under the record is pending
    intro t ht _
    rw [hdropT] at ht
    rcases List.mem_append.mp ht with h | h
    · exact newTasksFrom_status t h
    · exact releaseTasksFrom_status t h

/-- Witness for `in_flight_new_assignment` on the one-row example database:
the assignment is active, and detection files one in-flight change record
with a pending notify task, a pending set-apart task and a pending
record-set-apart task. -/
theorem in_flight_new_assignment_witness :
    (⟨1, "m1", true, none, none, none, none, none⟩ : CallingAssignment).is_active
      = true ∧
    ∃ rec : CallingChange,
      ((detect_in_flight_callings exampleNewAssignDB).calling_changes.drop
          exampleNewAssignDB.calling_changes.length).filter
        (fun cc => decide (cc.calling_org_name = "Relief Society" ∧
          cc.calling_title = "Teacher" ∧
          cc.new_member_church_id = some 12345)) = [rec] ∧
      rec.status = "in_flight" ∧
      (((detect_in_flight_callings exampleNewAssignDB).tasks.drop
          exampleNewAssignDB.tasks.length).filter
        (fun t => decide (t.calling_change_id = rec.id ∧
          t.task_type = "notify_organization"))).length = 1 ∧
      (((detect_in_flight_callings exampleNewAssignDB).tasks.drop
          exampleNewAssignDB.tasks.length).filter
        (fun t => decide (t.calling_change_id = rec.id ∧
          t.task_type = "set_apart"))).length = 1 ∧
      (((detect_in_flight_callings exampleNewAssignDB).tasks.drop
          exampleNewAssignDB.tasks.length).filter
        (fun t => decide (t.calling_change_id = rec.id ∧
          t.task_type = "record_set_apart"))).length = 1 ∧
      (∀ t ∈ (detect_in_flight_callings exampleNewAssignDB).tasks.drop
          exampleNewAssignDB.tasks.length,
        t.calling_change_id = rec.id → t.status = "pending") := by
  have h := in_flight_new_assignment exampleNewAssignDB
    (by decide) (by decide) (by decide) (by decide) (by decide) (by decide)
    ⟨1, "m1", true, none, none, none, none, none⟩
    ⟨1, 1, "Teacher", true, 21⟩ ⟨1, "Relief Society", none, 3⟩
    ⟨"m1", none, "Jane", "Doe", none, none, none, none, true, some 12345⟩ 12345
    (by decide) rfl (by decide) rfl (by decide) rfl (by decide) rfl rfl
    (by decide) (by decide)
  exact ⟨rfl, h⟩

/-! ## Claim C3 -/

/-- The new-assignment loop only appends change records and tasks; all other
tables are untouched. -/
theorem processNewRow_base (db : DB) (rows : List NewAssignRow) :
    (rows.foldl processNewRow db).calling_assignments = db.calling_assignments ∧
    (rows.foldl processNewRow db).callings = db.callings ∧
    (rows.foldl processNewRow db).organizations = db.organizations ∧
    (rows.foldl processNewRow db).members = db.members ∧
    (rows.foldl processNewRow db).pre_sync_calling_snapshot =
      db.pre_sync_calling_snapshot := by
  rw [foldl_processNewRow]
  exact ⟨rfl, rfl, rfl, rfl, rfl⟩

/-- The release loop only appends change records and tasks; all other tables
are untouched. -/
theorem processReleaseRow_base (db : DB) (rows : List ReleaseRow) :
    (rows.foldl processReleaseRow db).calling_assignments = db.calling_assignments ∧
    (rows.foldl processReleaseRow db).callings = db.callings ∧
    (rows.foldl processReleaseRow db).organizations = db.organizations ∧
    (rows.foldl processReleaseRow db).members = db.members ∧
    (rows.foldl processReleaseRow db).pre_sync_calling_snapshot =
      db.pre_sync_calling_snapshot := by
  rw [foldl_processReleaseRow]
  exact ⟨rfl, rfl, rfl, rfl, rfl⟩

/-- C3: in-flight detection is idempotent — running
`detect_in_flight_callings` a second time on the database produced by the
first run returns that database unchanged, so the second run creates zero
new change records and zero new tasks.  Every second-run new-assignment
candidate is excluded by the in-flight change record the first run created
for it, and every second-run release candidate either was materialized on
the first run (and is now excluded by its in-flight record) or fails to
resolve a current calling and member and is skipped, exactly as on the
first run. -/
theorem detect_in_flight_idempotent (db : DB) :
    detect_in_flight_callings (detect_in_flight_callings db) =
      detect_in_flight_callings db := by
  have hB1 := processNewRow_base db (newAssignmentRows db)
  have hB2 := processReleaseRow_base ((newAssignmentRows db).foldl processNewRow db)
    (releaseRows ((newAssignmentRows db).foldl processNewRow db))
  have hCA : (detect_in_flight_callings db).calling_assignments =
      db.calling_assignments := (hB2.1).trans hB1.1
  have hC : (detect_in_flight_callings db).callings = db.callings :=
    (hB2.2.1).trans hB1.2.1
  have hO : (detect_in_flight_callings db).organizations = db.organizations :=
    (hB2.2.2.1).trans hB1.2.2.1
  have hM : (detect_in_flight_callings db).members = db.members :=
    (hB2.2.2.2.1).trans hB1.2.2.2.1
  have hS : (detect_in_flight_callings db).pre_sync_calling_snapshot =
      db.pre_sync_calling_snapshot := (hB2.2.2.2.2).trans hB1.2.2.2.2
  have hccs : (detect_in_flight_callings db).calling_changes =
      ((newAssignmentRows db).foldl processNewRow db).calling_changes ++
        releaseChangesFrom
          (releaseRows ((newAssignmentRows db).foldl processNewRow db))
          ((newAssignmentRows db).foldl processNewRow db).next_change_id := by
    show ((releaseRows ((newAssignmentRows db).foldl processNewRow db)).foldl
      processReleaseRow
      ((newAssignmentRows db).foldl processNewRow db)).calling_changes = _
    rw [foldl_processReleaseRow]
  have hcc1 : ((newAssignmentRows db).foldl processNewRow db).calling_changes =
      db.calling_changes ++
        newChangesFrom (newAssignmentRows db) db.next_change_id := by
    rw [foldl_processNewRow]
  -- Second-run new-assignment query is empty.
  have hA2 : newAssignmentRows (detect_in_flight_callings db) = [] := by
    rw [List.eq_nil_iff_forall_not_mem]
    intro r hr
    obtain ⟨ca, hca, c, hc, o, ho, m, hm, cid, hmc, hcond, hrow⟩ :=
      mem_newAssignmentRows.mp hr
    rw [hCA] at hca
    rw [hC] at hc
    rw [hO] at ho
    rw [hM] at hm
    obtain ⟨h1, h2, h3, h4, h5, h6⟩ := hcond
    rw [hS] at h5
    have h6db : ∀ cc ∈ db.calling_changes,
        ¬(cc.calling_org_name = o.name ∧ cc.calling_title = c.title ∧
          cc.new_member_church_id = some cid ∧ cc.status ≠ "completed") := by
      intro cc hcc
      apply h6 cc
      rw [hccs, hcc1]
      exact List.mem_append_left _ (List.mem_append_left _ hcc)
    have hcondDB : newRowCond db ca c o m cid := ⟨h1, h2, h3, h4, h5, h6db⟩
    have hrmem : newAssignRowOf ca c o m cid ∈ newAssignmentRows db :=
      mem_newAssignmentRows.mpr ⟨ca, hca, c, hc, o, ho, m, hm, cid, hmc, hcondDB, rfl⟩
    obtain ⟨cc, hccmem, hk1, hk2, hk3, hk4⟩ :=
      mem_newChangesFrom_of_mem hrmem db.next_change_id
    have hccdet : cc ∈ (detect_in_flight_callings db).calling_changes := by
      rw [hccs, hcc1]
      exact List.mem_append_left _ (List.mem_append_right _ hccmem)
    exact h6 cc hccdet ⟨hk1, hk2, hk3, by rw [hk4]; decide⟩
  -- Every second-run release row fails to resolve and is skipped.
  have hRskip : ∀ r ∈ releaseRows (detect_in_flight_callings db),
      r.calling_id = none ∨ r.member_id = none := by
    intro r hr
    by_contra hcon
    push_neg at hcon
    obtain ⟨hcn, hmn⟩ := hcon
    simp only [releaseRows, List.mem_flatMap] at hr
    obtain ⟨pss, hpss, hrj⟩ := hr
    by_cases hcnd : releaseCond (detect_in_flight_callings db) pss
    · rw [if_pos hcnd] at hrj
      rw [hS] at hpss
      obtain ⟨hc1, hc2, hc3⟩ := hcnd
      rw [hCA, hC, hO, hM] at hc2
      have hrj1 : r ∈ releaseJoinRows
          ((newAssignmentRows db).foldl processNewRow db) pss := by
        rw [← releaseJoinRows_eq_of (detect_in_flight_callings db)
          ((newAssignmentRows db).foldl processNewRow db) pss
          (hO.trans hB1.2.2.1.symm) (hC.trans hB1.2.1.symm)
          (hM.trans hB1.2.2.2.1.symm)]
        exact hrj
      have hcond1 : releaseCond
          ((newAssignmentRows db).foldl processNewRow db) pss := by
        refine ⟨hc1, ?_, ?_⟩
        · rw [hB1.1, hB1.2.1, hB1.2.2.1, hB1.2.2.2.1]
          exact hc2
        · intro cc hcc
          apply hc3 cc
          rw [hccs]
          exact List.mem_append_left _ hcc
      have hrrel : r ∈ releaseRows
          ((newAssignmentRows db).foldl processNewRow db) := by
        simp only [releaseRows, List.mem_flatMap]
        refine ⟨pss, ?_, ?_⟩
        · rw [hB1.2.2.2.2]
          exact hpss
        · rw [if_pos hcond1]
          exact hrj1
      obtain ⟨cc, hccmem, hp1, hp2, hp3, hp4⟩ :=
        mem_releaseChangesFrom_of_mem hrrel hcn hmn
          ((newAssignmentRows db).foldl processNewRow db).next_change_id
      have hccdet : cc ∈ (detect_in_flight_callings db).calling_changes := by
        rw [hccs]
        exact List.mem_append_right _ hccmem
      obtain ⟨hk1, hk2, hk3⟩ := mem_releaseJoinRows_key hrj1
      exact hc3 cc hccdet
        ⟨by rw [hp1, hk1], by rw [hp2, hk2], by rw [hp3, hk3], by rw [hp4]; decide⟩
    · rw [if_neg hcnd] at hrj
      exact absurd hrj (List.not_mem_nil r)
  show (releaseRows ((newAssignmentRows (detect_in_flight_callings db)).foldl
      processNewRow (detect_in_flight_callings db))).foldl processReleaseRow
      ((newAssignmentRows (detect_in_flight_callings db)).foldl processNewRow
        (detect_in_flight_callings db)) = detect_in_flight_callings db
  rw [hA2]
  simp only [List.foldl_nil]
  exact foldl_processReleaseRow_skip _ _ hRskip

end Bishopric